import Mathlib

/-!
Verification development for the MCP-over-MQTT TypeScript SDK.

The definitions below are shallow embeddings of the source files
`src/shared/utils.ts`, `src/shared/mqtt-adapter.ts`, `src/index.ts`
(the `McpMqttServer` class) and `src/client/mcp-client.ts`
(the `McpMqttClient` class).  JavaScript objects arriving from
`JSON.parse` are modelled by the inductive type `JsValue`; the class
state is modelled by explicit state records, and every `async` handler
of the source becomes a step of an explicit transition function.
-/

namespace Mcp

/-- A JavaScript value as produced by `JSON.parse`, together with
`undefined`, which models an absent object field. -/
inductive JsValue : Type where
  | nullV : JsValue
  | undefV : JsValue
  | boolV (b : Bool) : JsValue
  | numV (n : Int) : JsValue
  | strV (s : String) : JsValue
  | obj (fields : List (String × JsValue)) : JsValue
  | arr (len : Nat) : JsValue

/-- JavaScript truthiness: `null`, `undefined`, `false`, `0` and the
empty string are falsy; objects and arrays are always truthy. -/
def truthy : JsValue → Bool
  | .nullV => false
  | .undefV => false
  | .boolV b => b
  | .numV n => n != 0
  | .strV s => s != ""
  | .obj _ => true
  | .arr _ => true

/-- The JavaScript test `typeof m === forms an object`, which holds for
plain objects, arrays and `null`. -/
def typeofObject : JsValue → Bool
  | .nullV => true
  | .obj _ => true
  | .arr _ => true
  | _ => false

/-- Field access `m.k` on a parsed value: a missing key (or a
non-object receiver, for the string keys used by the SDK) reads as
`undefined`. -/
def getField (m : JsValue) (k : String) : JsValue :=
  match m with
  | .obj fields =>
      match fields.find? (fun p => p.1 == k) with
      | some p => p.2
      | none => .undefV
  | _ => .undefV

/-- The JavaScript test `k in m` for the non-numeric keys used by the
SDK: key membership of a plain object, false on every other value. -/
def hasKey (m : JsValue) (k : String) : Bool :=
  match m with
  | .obj fields => fields.any (fun p => p.1 == k)
  | _ => false

/-- The test `m.jsonrpc === the version string 2.0` from
`src/shared/utils.ts`. -/
def jsonrpcIs20 (m : JsValue) : Bool :=
  match getField m "jsonrpc" with
  | .strV s => s == "2.0"
  | _ => false

/-- `isRequest` from `src/shared/utils.ts`: truthy, of object type,
`jsonrpc` equal to the version string, and both a `method` and an `id`
member. -/
def isRequest (m : JsValue) : Bool :=
  truthy m && typeofObject m && jsonrpcIs20 m && hasKey m "method" && hasKey m "id"

/-- `isResponse` from `src/shared/utils.ts`: truthy, of object type,
`jsonrpc` equal to the version string, an `id` member and no `method`
member. -/
def isResponse (m : JsValue) : Bool :=
  truthy m && typeofObject m && jsonrpcIs20 m && hasKey m "id" && !(hasKey m "method")

/-- `isNotification` from `src/shared/utils.ts`: truthy, of object
type, `jsonrpc` equal to the version string, a `method` member and no
`id` member. -/
def isNotification (m : JsValue) : Bool :=
  truthy m && typeofObject m && jsonrpcIs20 m && hasKey m "method" && !(hasKey m "id")

end Mcp

/-- Claim C10: the three message classifiers of `src/shared/utils.ts`
are pairwise mutually exclusive: for every value `m`, at most one of
`isRequest m`, `isResponse m` and `isNotification m` holds, because
`isRequest` demands both a `method` and an `id` member, `isResponse`
demands an `id` member and no `method` member, and `isNotification`
demands a `method` member and no `id` member. -/
theorem classifiers_mutually_exclusive (m : Mcp.JsValue) :
    (Mcp.isRequest m && Mcp.isResponse m) = false ∧
    (Mcp.isRequest m && Mcp.isNotification m) = false ∧
    (Mcp.isResponse m && Mcp.isNotification m) = false := by
  unfold Mcp.isRequest Mcp.isResponse Mcp.isNotification
  cases hm : Mcp.hasKey m "method" <;> cases hi : Mcp.hasKey m "id" <;> simp

namespace Mcp

/-- A JSON-RPC error object `code and message` as built by
`McpError.toJSON` in `src/shared/utils.ts` (the optional `data` member
is never set on the paths of the server dispatcher). -/
structure ErrObj : Type where
  code : Int
  message : String
deriving DecidableEq

/-- One content item of a tool result, per the `ToolHandler` interface
of `src/index.ts`. -/
structure ContentItem : Type where
  type : String
  text : Option String
  data : Option String
  mimeType : Option String
deriving DecidableEq

/-- The structured value a tool handler resolves with. -/
structure ToolResult : Type where
  content : List ContentItem
  isError : Option Bool
deriving DecidableEq

/-- One entry of a resource result, per the `ResourceHandler`
interface of `src/index.ts`. -/
structure ResContent : Type where
  uri : String
  mimeType : Option String
  text : Option String
  blob : Option String
deriving DecidableEq

/-- The structured value a resource handler resolves with. -/
structure ResourceResult : Type where
  contents : List ResContent
deriving DecidableEq

/-- A tool definition as stored by `McpMqttServer.tool`. -/
structure ToolDef : Type where
  name : String
  description : Option String
  inputSchema : JsValue

/-- A resource definition as stored by `McpMqttServer.resource`. -/
structure ResDef : Type where
  uri : String
  name : String
  description : Option String
  mimeType : Option String
deriving DecidableEq

/-- A value a JavaScript promise can reject with on the server's
dispatch path: an `McpError` instance, an ordinary `Error` carrying a
message, or a non-`Error` value. -/
inductive JsErr : Type where
  | mcp (code : Int) (message : String) : JsErr
  | jsError (message : String) : JsErr
  | raw : JsErr
deriving DecidableEq

/-- A user-supplied tool handler: it receives the invocation arguments
and either resolves with a `ToolResult` or rejects. -/
def ToolHandlerF : Type := JsValue → Except JsErr ToolResult

/-- A user-supplied resource handler. -/
def ResHandlerF : Type := Unit → Except JsErr ResourceResult

/-- The server's tool map `tools`, keyed by tool name
(insertion-ordered, like a JavaScript `Map`). -/
def ToolMap : Type := List (String × ToolDef × ToolHandlerF)

/-- The server's resource map `resources`, keyed by URI. -/
def ResMap : Type := List (String × ResDef × ResHandlerF)

/-- The `tools` sub-record of a capabilities declaration. -/
structure ToolsCap : Type where
  listChanged : Option Bool
deriving DecidableEq

/-- The `resources` sub-record of a capabilities declaration. -/
structure ResourcesCap : Type where
  subscribe : Option Bool
  listChanged : Option Bool
deriving DecidableEq

/-- The `prompts` sub-record of a capabilities declaration. -/
structure PromptsCap : Type where
  listChanged : Option Bool
deriving DecidableEq

/-- A server capabilities record as found in
`McpMqttServerConfig.capabilities`; a `none` field models an absent
key. -/
structure Capabilities : Type where
  logging : Option Unit
  prompts : Option PromptsCap
  resources : Option ResourcesCap
  tools : Option ToolsCap
deriving DecidableEq

/-- The payload of a successful JSON-RPC response built by the server
dispatcher. -/
inductive ResultVal : Type where
  | toolsList (ts : List ToolDef) : ResultVal
  | resourcesList (rs : List ResDef) : ResultVal
  | toolResult (r : ToolResult) : ResultVal
  | resourceResult (r : ResourceResult) : ResultVal
  | pong : ResultVal
  | initResult (protocolVersion : String) (caps : Capabilities)
      (serverName serverVersion : String) : ResultVal

/-- A JSON-RPC response as built by `createResponse` in
`src/shared/utils.ts`: the request id echoed back, and at most one of
`result` and `error` present. -/
structure Response : Type where
  id : JsValue
  result : Option ResultVal
  error : Option ErrObj

/-- `createResponse(id, result)`: a successful response. -/
def respOk (id : JsValue) (r : ResultVal) : Response :=
  { id := id, result := some r, error := none }

/-- `createResponse(id, undefined, error)`: an error response. -/
def respErr (id : JsValue) (code : Int) (message : String) : Response :=
  { id := id, result := none, error := some { code := code, message := message } }

/-- Error codes from the `ErrorCode` enum of `src/types.ts`. -/
def methodNotFoundCode : Int := -32601

/-- `ErrorCode.INTERNAL_ERROR`. -/
def internalErrorCode : Int := -32603

/-- `ErrorCode.TOOL_NOT_FOUND`. -/
def toolNotFoundCode : Int := -32001

/-- `ErrorCode.RESOURCE_NOT_FOUND`. -/
def resourceNotFoundCode : Int := -32002

/-- `ErrorCode.INVALID_PARAMS`. -/
def invalidParamsCode : Int := -32602

/-- Zod check `z.union of string and number` used for the `id` field. -/
def zodIdOk : JsValue → Bool
  | .strV _ => true
  | .numV _ => true
  | _ => false

/-- Zod check for an optional field of record type: the key may be
absent or `undefined`, and an object otherwise. -/
def zodOptRecord (v : JsValue) : Bool :=
  match v with
  | .undefV => true
  | .obj _ => true
  | _ => false

/-- `CallToolRequestSchema.parse` from `src/types.ts`, returning the
parsed `name` and the optional `arguments` record on success.  The
schema demands `jsonrpc` equal to the version string, a string or
number `id`, the literal method `tools/call`, and params containing a
string `name` and an optional record `arguments`. -/
def zodCallTool (m : JsValue) : Option (String × Option JsValue) :=
  if jsonrpcIs20 m && zodIdOk (getField m "id") then
    match getField m "method" with
    | .strV s =>
        if s == "tools/call" then
          match getField m "params" with
          | .obj pf =>
              match getField (.obj pf) "name" with
              | .strV n =>
                  match getField (.obj pf) "arguments" with
                  | .undefV => some (n, none)
                  | .obj a => some (n, some (.obj a))
                  | _ => none
              | _ => none
          | _ => none
        else none
    | _ => none
  else none

/-- `ReadResourceRequestSchema.parse` from `src/types.ts`, returning
the parsed `uri` on success. -/
def zodReadResource (m : JsValue) : Option String :=
  if jsonrpcIs20 m && zodIdOk (getField m "id") then
    match getField m "method" with
    | .strV s =>
        if s == "resources/read" then
          match getField m "params" with
          | .obj pf =>
              match getField (.obj pf) "uri" with
              | .strV u => some u
              | _ => none
          | _ => none
        else none
    | _ => none
  else none

/-- String rendering of a parsed value, used where the source
interpolates `request.method` into an error message. -/
def jsStr : JsValue → String
  | .strV s => s
  | .numV n => toString n
  | .boolV b => toString b
  | .nullV => "null"
  | .undefV => "undefined"
  | .obj _ => "[object Object]"
  | .arr _ => ""

/-- Lookup in the server's tool map, `this.tools.get(name)`. -/
def lookupTool (ts : ToolMap) (n : String) : Option (ToolDef × ToolHandlerF) :=
  match ts.find? (fun p => p.1 == n) with
  | some p => some p.2
  | none => none

/-- Lookup in the server's resource map, `this.resources.get(uri)`. -/
def lookupRes (rs : ResMap) (u : String) : Option (ResDef × ResHandlerF) :=
  match rs.find? (fun p => p.1 == u) with
  | some p => some p.2
  | none => none

/-- `McpMqttServer.handleToolCall`: validate against the zod schema,
look up the tool, invoke its handler with `params.arguments` defaulted
to the empty record, and convert a rejection that is not an `McpError`
into `INTERNAL_ERROR`; an `McpError` rejection is rethrown unchanged. -/
def handleToolCall (ts : ToolMap) (m : JsValue) : Except JsErr ResultVal :=
  match zodCallTool m with
  | none => .error (.mcp internalErrorCode "Invalid tools/call request")
  | some (n, args) =>
      match lookupTool ts n with
      | none => .error (.mcp toolNotFoundCode ("Tool not found: " ++ n))
      | some entry =>
          match entry.2 (args.getD (.obj [])) with
          | .ok r => .ok (.toolResult r)
          | .error (.mcp c msg) => .error (.mcp c msg)
          | .error (.jsError msg) => .error (.mcp internalErrorCode msg)
          | .error .raw => .error (.mcp internalErrorCode "Tool execution failed")

/-- `McpMqttServer.handleResourceRead`: validate, look up the
resource, invoke its handler, and convert rejections as for tools. -/
def handleResourceRead (rs : ResMap) (m : JsValue) : Except JsErr ResultVal :=
  match zodReadResource m with
  | none => .error (.mcp internalErrorCode "Invalid resources/read request")
  | some u =>
      match lookupRes rs u with
      | none => .error (.mcp resourceNotFoundCode ("Resource not found: " ++ u))
      | some entry =>
          match entry.2 () with
          | .ok r => .ok (.resourceResult r)
          | .error (.mcp c msg) => .error (.mcp c msg)
          | .error (.jsError msg) => .error (.mcp internalErrorCode msg)
          | .error .raw => .error (.mcp internalErrorCode "Resource read failed")

/-- Convert the outcome of a dispatch branch into the response the
outer catch of `McpMqttServer.handleRpcMessage` publishes. -/
def respOfExcept (id : JsValue) : Except JsErr ResultVal → Response
  | .ok r => respOk id r
  | .error (.mcp c msg) => respErr id c msg
  | .error (.jsError msg) => respErr id internalErrorCode msg
  | .error .raw => respErr id internalErrorCode "Internal error"

/-- `McpMqttServer.handleRpcMessage` (dispatch part): drop messages
without a truthy `method` and `id`, then dispatch on the method
string; unknown methods produce `METHOD_NOT_FOUND`.  Returns `none`
when the source publishes no response. -/
def handleRpcMsg (ts : ToolMap) (rs : ResMap) (m : JsValue) : Option Response :=
  if !(truthy (getField m "method")) || !(truthy (getField m "id")) then
    none
  else
    let id := getField m "id"
    match getField m "method" with
    | .strV s =>
        if s == "tools/list" then some (respOk id (.toolsList (ts.map (fun p => p.2.1))))
        else if s == "tools/call" then some (respOfExcept id (handleToolCall ts m))
        else if s == "resources/list" then
          some (respOk id (.resourcesList (rs.map (fun p => p.2.1))))
        else if s == "resources/read" then some (respOfExcept id (handleResourceRead rs m))
        else if s == "ping" then some (respOk id .pong)
        else some (respErr id methodNotFoundCode ("Method not found: " ++ s))
    | other => some (respErr id methodNotFoundCode ("Method not found: " ++ jsStr other))

end Mcp

namespace Mcp

/-- The per-method timeout table of `McpMqttClient.getRequestTimeout`
in `src/client/mcp-client.ts`, in insertion order. -/
def timeoutTable : List (String × Nat) :=
  [("initialize", 30000),
   ("ping", 10000),
   ("roots/list", 30000),
   ("resources/list", 30000),
   ("tools/list", 30000),
   ("prompts/list", 30000),
   ("prompts/get", 30000),
   ("sampling/createMessage", 60000),
   ("resources/read", 30000),
   ("resources/templates/list", 30000),
   ("resources/subscribe", 30000),
   ("tools/call", 60000),
   ("completion/complete", 60000),
   ("logging/setLevel", 30000)]

/-- JavaScript `a || b` on a possibly missing number: a missing or
zero table entry falls back to the default. -/
def jsOrNum (v : Option Nat) (d : Nat) : Nat :=
  match v with
  | some n => if n == 0 then d else n
  | none => d

/-- `McpMqttClient.getRequestTimeout`: table lookup with a 30000 ms
default. -/
def getRequestTimeout (method : String) : Nat :=
  jsOrNum (timeoutTable.lookup method) 30000

/-- The outcome delivered to the awaiter of a pending request: the
resolution or one of the rejection kinds of
`src/client/mcp-client.ts`. -/
inductive Outcome : Type where
  | success : Outcome
  | rpcError (code : Int) (message : String) : Outcome
  | timeoutErr (method : String) (ms : Nat) : Outcome
  | transportErr (message : String) : Outcome
  | cancelled : Outcome
deriving DecidableEq

/-- The client state relevant to request correlation: the
`pendingRequests` map (an entry carries its one-shot promise slot and
its live timer, so entry presence and timer liveness coincide), the
set of publishes whose failure callback can still run, the log of
outcomes actually delivered to awaiters, the ids ever created, and the
id generator. -/
structure Reg : Type where
  pending : List (Nat × String)
  pubPend : List Nat
  settled : List (Nat × Outcome)
  created : List (Nat × String)
  nextId : Nat

/-- The fresh registry of a newly constructed client. -/
def Reg.start : Reg :=
  { pending := [], pubPend := [], settled := [], created := [], nextId := 0 }

/-- Key projection of an association list. -/
def keysOf {α : Type} (l : List (Nat × α)) : List Nat :=
  l.map Prod.fst

/-- `Map.delete` on an association list with the given key. -/
def eraseKey {α : Type} (l : List (Nat × α)) (id : Nat) : List (Nat × α) :=
  l.filter (fun p => p.1 != id)

/-- Settling the one-shot promise slot of request `id`: a JavaScript
promise ignores a second resolve or reject, so an already settled id
is left unchanged and no further outcome reaches the awaiter. -/
def settleSlot (s : Reg) (id : Nat) (o : Outcome) : Reg :=
  if (keysOf s.settled).contains id then s
  else { s with settled := (id, o) :: s.settled }

/-- The events that drive the correlation registry: `sendRequest`
inserting an entry, a correlated response arriving in
`handleRpcMessage`, the per-request timer firing, the publish promise
settling, and `disconnect`. -/
inductive RegEvent : Type where
  | send (method : String) : RegEvent
  | responseOk (id : Nat) : RegEvent
  | responseErr (id : Nat) (code : Int) (message : String) : RegEvent
  | timerFire (id : Nat) : RegEvent
  | publishFail (id : Nat) (message : String) : RegEvent
  | publishOk (id : Nat) : RegEvent
  | disconnect : RegEvent

/-- One atomic event-loop turn of the registry, following
`src/client/mcp-client.ts`:

* `send` inserts the entry and schedules the timer
  (`sendRequest`, where the created promise is the awaiter);
* `responseOk` and `responseErr` act only when the id is pending:
  the entry is removed, the timer cancelled and the slot settled
  (`handleRpcMessage`);
* `timerFire` can only happen while the entry and its timer are
  alive: it removes the entry and rejects with the timeout error
  naming the method and `getRequestTimeout method` milliseconds;
* `publishFail` is the rejection path of the `publish` call inside
  `sendRequest`: it removes the entry, cancels the timer and rejects
  the slot;
* `disconnect` rejects every pending entry and clears the map. -/
def regStep (s : Reg) : RegEvent → Reg
  | .send method =>
      { s with
        pending := (s.nextId, method) :: s.pending,
        pubPend := s.nextId :: s.pubPend,
        created := (s.nextId, method) :: s.created,
        nextId := s.nextId + 1 }
  | .responseOk id =>
      if (keysOf s.pending).contains id then
        settleSlot { s with pending := eraseKey s.pending id } id .success
      else s
  | .responseErr id code message =>
      if (keysOf s.pending).contains id then
        settleSlot { s with pending := eraseKey s.pending id } id (.rpcError code message)
      else s
  | .timerFire id =>
      match s.pending.find? (fun p => p.1 == id) with
      | some p =>
          settleSlot { s with pending := eraseKey s.pending id } id
            (.timeoutErr p.2 (getRequestTimeout p.2))
      | none => s
  | .publishFail id message =>
      if s.pubPend.contains id then
        settleSlot
          { s with pending := eraseKey s.pending id, pubPend := s.pubPend.erase id }
          id (.transportErr message)
      else s
  | .publishOk id =>
      { s with pubPend := s.pubPend.erase id }
  | .disconnect =>
      let s' := s.pending.foldl (fun acc p => settleSlot acc p.1 .cancelled) s
      { s' with pending := [] }

/-- The registry states reachable from a fresh client. -/
inductive RegReach : Reg → Prop where
  | start : RegReach Reg.start
  | step {s : Reg} (e : RegEvent) : RegReach s → RegReach (regStep s e)

end Mcp

namespace Mcp

theorem keysOf_cons {α : Type} (a : Nat × α) (l : List (Nat × α)) :
    keysOf (a :: l) = a.1 :: keysOf l := rfl

theorem mem_keysOf {α : Type} {l : List (Nat × α)} {id : Nat} :
    id ∈ keysOf l ↔ ∃ b, (id, b) ∈ l := by
  simp only [keysOf, List.mem_map]
  constructor
  · rintro ⟨⟨a, b⟩, hmem, rfl⟩
    exact ⟨b, hmem⟩
  · rintro ⟨b, hmem⟩
    exact ⟨(id, b), hmem, rfl⟩

theorem mem_keysOf_eraseKey {α : Type} {l : List (Nat × α)} {id id' : Nat} :
    id' ∈ keysOf (eraseKey l id) ↔ id' ∈ keysOf l ∧ id' ≠ id := by
  simp only [mem_keysOf, eraseKey, List.mem_filter, bne_iff_ne, ne_eq]
  constructor
  · rintro ⟨b, hmem, hne⟩
    exact ⟨⟨b, hmem⟩, hne⟩
  · rintro ⟨⟨b, hmem⟩, hne⟩
    exact ⟨b, hmem, hne⟩

theorem nodup_keysOf_eraseKey {α : Type} {l : List (Nat × α)} {id : Nat}
    (h : (keysOf l).Nodup) : (keysOf (eraseKey l id)).Nodup :=
  h.sublist ((List.filter_sublist l).map Prod.fst)

theorem settleSlot_pending (s : Reg) (id : Nat) (o : Outcome) :
    (settleSlot s id o).pending = s.pending := by
  unfold settleSlot; split <;> rfl

theorem settleSlot_pubPend (s : Reg) (id : Nat) (o : Outcome) :
    (settleSlot s id o).pubPend = s.pubPend := by
  unfold settleSlot; split <;> rfl

theorem settleSlot_created (s : Reg) (id : Nat) (o : Outcome) :
    (settleSlot s id o).created = s.created := by
  unfold settleSlot; split <;> rfl

theorem settleSlot_nextId (s : Reg) (id : Nat) (o : Outcome) :
    (settleSlot s id o).nextId = s.nextId := by
  unfold settleSlot; split <;> rfl

theorem mem_settled_settleSlot {s : Reg} {id id' : Nat} {o : Outcome} :
    id' ∈ keysOf (settleSlot s id o).settled ↔
      id' ∈ keysOf s.settled ∨ (id' = id ∧ id ∉ keysOf s.settled) := by
  unfold settleSlot
  by_cases h : (keysOf s.settled).contains id
  · rw [if_pos h]
    have hm : id ∈ keysOf s.settled := by
      simpa using h
    constructor
    · exact fun hx => Or.inl hx
    · rintro (hx | ⟨rfl, hx⟩)
      · exact hx
      · exact absurd hm hx
  · rw [if_neg h]
    have hm : id ∉ keysOf s.settled := by
      simpa using h
    simp only [keysOf_cons, List.mem_cons]
    constructor
    · rintro (rfl | hx)
      · exact Or.inr ⟨rfl, hm⟩
      · exact Or.inl hx
    · rintro (hx | ⟨rfl, _⟩)
      · exact Or.inr hx
      · exact Or.inl rfl

theorem nodup_settled_settleSlot {s : Reg} (id : Nat) (o : Outcome)
    (h : (keysOf s.settled).Nodup) : (keysOf (settleSlot s id o).settled).Nodup := by
  unfold settleSlot
  by_cases hc : (keysOf s.settled).contains id
  · rw [if_pos hc]; exact h
  · rw [if_neg hc]
    have hm : id ∉ keysOf s.settled := by simpa using hc
    exact List.Nodup.cons hm h

theorem pair_mem_settled_settleSlot {s : Reg} {id : Nat} {o : Outcome}
    (h : id ∉ keysOf s.settled) : (id, o) ∈ (settleSlot s id o).settled := by
  unfold settleSlot
  rw [if_neg (by simpa using h)]
  exact List.mem_cons_self _ _

/-- The inductive invariant of the correlation registry. -/
structure RegInv (s : Reg) : Prop where
  settledNodup : (keysOf s.settled).Nodup
  pendingNodup : (keysOf s.pending).Nodup
  disjoint : ∀ id, id ∈ keysOf s.pending → id ∉ keysOf s.settled
  createdIff : ∀ id, id ∈ keysOf s.created ↔ (id ∈ keysOf s.pending ∨ id ∈ keysOf s.settled)
  createdLt : ∀ id, id ∈ keysOf s.created → id < s.nextId
  pubCreated : ∀ id, id ∈ s.pubPend → id ∈ keysOf s.created

theorem foldl_settle_pending (L : List (Nat × String)) (s : Reg) :
    (L.foldl (fun acc p => settleSlot acc p.1 .cancelled) s).pending = s.pending := by
  induction L generalizing s with
  | nil => rfl
  | cons a t ih => rw [List.foldl_cons, ih, settleSlot_pending]

theorem foldl_settle_pubPend (L : List (Nat × String)) (s : Reg) :
    (L.foldl (fun acc p => settleSlot acc p.1 .cancelled) s).pubPend = s.pubPend := by
  induction L generalizing s with
  | nil => rfl
  | cons a t ih => rw [List.foldl_cons, ih, settleSlot_pubPend]

theorem foldl_settle_created (L : List (Nat × String)) (s : Reg) :
    (L.foldl (fun acc p => settleSlot acc p.1 .cancelled) s).created = s.created := by
  induction L generalizing s with
  | nil => rfl
  | cons a t ih => rw [List.foldl_cons, ih, settleSlot_created]

theorem foldl_settle_nextId (L : List (Nat × String)) (s : Reg) :
    (L.foldl (fun acc p => settleSlot acc p.1 .cancelled) s).nextId = s.nextId := by
  induction L generalizing s with
  | nil => rfl
  | cons a t ih => rw [List.foldl_cons, ih, settleSlot_nextId]

theorem mem_settled_foldl_settle {L : List (Nat × String)} {s : Reg} {id : Nat} :
    id ∈ keysOf (L.foldl (fun acc p => settleSlot acc p.1 .cancelled) s).settled ↔
      id ∈ keysOf s.settled ∨ id ∈ keysOf L := by
  induction L generalizing s with
  | nil => simp [keysOf]
  | cons a t ih =>
      rw [List.foldl_cons, ih, mem_settled_settleSlot, keysOf_cons]
      by_cases hm : a.1 ∈ keysOf s.settled
      · constructor
        · rintro ((hx | ⟨rfl, hx⟩) | hx)
          · exact Or.inl hx
          · exact absurd hm hx
          · exact Or.inr (List.mem_cons_of_mem _ hx)
        · rintro (hx | hx)
          · exact Or.inl (Or.inl hx)
          · rcases List.mem_cons.mp hx with rfl | hx
            · exact Or.inl (Or.inl hm)
            · exact Or.inr hx
      · constructor
        · rintro ((hx | ⟨rfl, _⟩) | hx)
          · exact Or.inl hx
          · exact Or.inr (List.mem_cons_self _ _)
          · exact Or.inr (List.mem_cons_of_mem _ hx)
        · rintro (hx | hx)
          · exact Or.inl (Or.inl hx)
          · rcases List.mem_cons.mp hx with rfl | hx
            · exact Or.inl (Or.inr ⟨rfl, hm⟩)
            · exact Or.inr hx

theorem nodup_settled_foldl_settle {L : List (Nat × String)} {s : Reg}
    (h : (keysOf s.settled).Nodup) :
    (keysOf (L.foldl (fun acc p => settleSlot acc p.1 .cancelled) s).settled).Nodup := by
  induction L generalizing s with
  | nil => exact h
  | cons a t ih =>
      rw [List.foldl_cons]
      exact ih (nodup_settled_settleSlot _ _ h)

theorem find?_eq_of_mem_nodupKeys {α : Type} {l : List (Nat × α)} {id : Nat} {b : α}
    (hnd : (keysOf l).Nodup) (hmem : (id, b) ∈ l) :
    l.find? (fun p => p.1 == id) = some (id, b) := by
  induction l with
  | nil => cases hmem
  | cons a t ih =>
      rw [keysOf_cons] at hnd
      rcases List.mem_cons.mp hmem with rfl | hmem
      · simp [List.find?]
      · have hne : a.1 ≠ id := by
          intro h
          exact (List.nodup_cons.mp hnd).1
            (h ▸ mem_keysOf.mpr ⟨b, hmem⟩)
        rw [List.find?]
        rw [show (a.1 == id) = false from beq_eq_false_iff_ne.mpr hne]
        exact ih (List.nodup_cons.mp hnd).2 hmem

end Mcp

namespace Mcp

theorem regInv_start : RegInv Reg.start := by
  refine ⟨?_, ?_, ?_, ?_, ?_, ?_⟩ <;> simp [Reg.start, keysOf]

theorem regInv_removeSettle (s : Reg) (id : Nat) (o : Outcome)
    (inv : RegInv s) (hid : id ∈ keysOf s.pending) :
    RegInv (settleSlot { s with pending := eraseKey s.pending id } id o) := by
  have hns : id ∉ keysOf s.settled := inv.disjoint id hid
  have hset : ∀ id', id' ∈ keysOf (settleSlot { s with pending := eraseKey s.pending id } id o).settled ↔
      id' ∈ keysOf s.settled ∨ id' = id := by
    intro id'
    rw [mem_settled_settleSlot]
    constructor
    · rintro (hx | ⟨rfl, _⟩)
      · exact Or.inl hx
      · exact Or.inr rfl
    · rintro (hx | rfl)
      · exact Or.inl hx
      · exact Or.inr ⟨rfl, hns⟩
  have hpend : (settleSlot { s with pending := eraseKey s.pending id } id o).pending =
      eraseKey s.pending id := settleSlot_pending _ _ _
  refine ⟨?_, ?_, ?_, ?_, ?_, ?_⟩
  · exact nodup_settled_settleSlot _ _ inv.settledNodup
  · rw [hpend]
    exact nodup_keysOf_eraseKey inv.pendingNodup
  · intro id' hmem
    rw [hpend] at hmem
    obtain ⟨hmem, hne⟩ := mem_keysOf_eraseKey.mp hmem
    rw [hset]
    rintro (hx | rfl)
    · exact inv.disjoint id' hmem hx
    · exact hne rfl
  · intro id'
    rw [settleSlot_created, hpend, hset, mem_keysOf_eraseKey]
    show id' ∈ keysOf s.created ↔ _
    rw [inv.createdIff id']
    by_cases he : id' = id
    · subst he
      constructor
      · intro _; exact Or.inr (Or.inr rfl)
      · intro _; exact Or.inl hid
    · constructor
      · rintro (hx | hx)
        · exact Or.inl ⟨hx, he⟩
        · exact Or.inr (Or.inl hx)
      · rintro (⟨hx, _⟩ | hx | rfl)
        · exact Or.inl hx
        · exact Or.inr hx
        · exact absurd rfl he
  · intro id'
    rw [settleSlot_created, settleSlot_nextId]
    exact inv.createdLt id'
  · intro id'
    rw [settleSlot_created, settleSlot_pubPend]
    exact inv.pubCreated id'

theorem regInv_step (s : Reg) (e : RegEvent) (inv : RegInv s) : RegInv (regStep s e) := by
  cases e with
  | send method =>
      have hfresh : s.nextId ∉ keysOf s.created := by
        intro h
        exact absurd (inv.createdLt _ h) (Nat.lt_irrefl _)
      have hfp : s.nextId ∉ keysOf s.pending := fun h =>
        hfresh ((inv.createdIff _).mpr (Or.inl h))
      have hfs : s.nextId ∉ keysOf s.settled := fun h =>
        hfresh ((inv.createdIff _).mpr (Or.inr h))
      refine ⟨inv.settledNodup, ?_, ?_, ?_, ?_, ?_⟩
      · exact List.Nodup.cons hfp inv.pendingNodup
      · intro id hmem
        rcases List.mem_cons.mp hmem with rfl | hmem
        · exact hfs
        · exact inv.disjoint id hmem
      · intro id
        show id ∈ keysOf ((s.nextId, method) :: s.created) ↔
          id ∈ keysOf ((s.nextId, method) :: s.pending) ∨ id ∈ keysOf s.settled
        simp only [keysOf_cons, List.mem_cons]
        rw [inv.createdIff id]
        tauto
      · intro id hmem
        rcases List.mem_cons.mp hmem with rfl | hmem
        · exact Nat.lt_succ_self _
        · exact Nat.lt_succ_of_lt (inv.createdLt id hmem)
      · intro id hmem
        rcases List.mem_cons.mp hmem with rfl | hmem
        · exact List.mem_cons_self _ _
        · exact List.mem_cons_of_mem _ (inv.pubCreated id hmem)
  | responseOk id =>
      show RegInv (regStep s (.responseOk id))
      rw [regStep]
      by_cases h : (keysOf s.pending).contains id
      · rw [if_pos h]
        exact regInv_removeSettle s id .success inv (by simpa using h)
      · rw [if_neg h]; exact inv
  | responseErr id code message =>
      show RegInv (regStep s (.responseErr id code message))
      rw [regStep]
      by_cases h : (keysOf s.pending).contains id
      · rw [if_pos h]
        exact regInv_removeSettle s id _ inv (by simpa using h)
      · rw [if_neg h]; exact inv
  | timerFire id =>
      show RegInv (regStep s (.timerFire id))
      rw [regStep]
      cases hf : s.pending.find? (fun p => p.1 == id) with
      | none => exact inv
      | some p =>
          have hmem : p ∈ s.pending := List.mem_of_find?_eq_some hf
          have hkey : p.1 = id := by
            have := List.find?_some hf
            simpa using this
          have hidp : id ∈ keysOf s.pending := mem_keysOf.mpr ⟨p.2, by
            rw [← hkey]; exact hmem⟩
          exact regInv_removeSettle s id _ inv hidp
  | publishFail id message =>
      show RegInv (regStep s (.publishFail id message))
      rw [regStep]
      by_cases h : s.pubPend.contains id
      · rw [if_pos h]
        have hidc : id ∈ keysOf s.created := inv.pubCreated id (by simpa using h)
        set s1 : Reg := { s with pending := eraseKey s.pending id, pubPend := s.pubPend.erase id } with hs1
        have hset : ∀ id', id' ∈ keysOf (settleSlot s1 id (.transportErr message)).settled ↔
            id' ∈ keysOf s.settled ∨ (id' = id ∧ id ∉ keysOf s.settled) :=
          fun id' => mem_settled_settleSlot
        refine ⟨?_, ?_, ?_, ?_, ?_, ?_⟩
        · exact nodup_settled_settleSlot _ _ inv.settledNodup
        · rw [settleSlot_pending]
          exact nodup_keysOf_eraseKey inv.pendingNodup
        · intro id' hmem
          rw [settleSlot_pending] at hmem
          obtain ⟨hmem, hne⟩ := mem_keysOf_eraseKey.mp hmem
          rw [hset]
          rintro (hx | ⟨rfl, _⟩)
          · exact inv.disjoint id' hmem hx
          · exact hne rfl
        · intro id'
          rw [settleSlot_created, settleSlot_pending, hset, mem_keysOf_eraseKey]
          show id' ∈ keysOf s.created ↔ _
          rw [inv.createdIff id']
          by_cases he : id' = id
          · subst he
            constructor
            · intro _
              by_cases hs : id' ∈ keysOf s.settled
              · exact Or.inr (Or.inl hs)
              · exact Or.inr (Or.inr ⟨rfl, hs⟩)
            · intro _; exact (inv.createdIff _).mp hidc
          · constructor
            · rintro (hx | hx)
              · exact Or.inl ⟨hx, he⟩
              · exact Or.inr (Or.inl hx)
            · rintro (⟨hx, _⟩ | hx | ⟨rfl, _⟩)
              · exact Or.inl hx
              · exact Or.inr hx
              · exact absurd rfl he
        · intro id'
          rw [settleSlot_created, settleSlot_nextId]
          exact inv.createdLt id'
        · intro id' hmem
          rw [settleSlot_created]
          rw [settleSlot_pubPend] at hmem
          exact inv.pubCreated id' (List.mem_of_mem_erase hmem)
      · rw [if_neg h]; exact inv
  | publishOk id =>
      refine ⟨inv.settledNodup, inv.pendingNodup, inv.disjoint, inv.createdIff, inv.createdLt, ?_⟩
      intro id' hmem
      exact inv.pubCreated id' (List.mem_of_mem_erase hmem)
  | disconnect =>
      show RegInv (regStep s .disconnect)
      rw [regStep]
      set s' := s.pending.foldl (fun acc p => settleSlot acc p.1 .cancelled) s with hs'
      refine ⟨?_, ?_, ?_, ?_, ?_, ?_⟩
      · exact nodup_settled_foldl_settle inv.settledNodup
      · simp [keysOf]
      · intro id hmem
        simp [keysOf] at hmem
      · intro id
        show id ∈ keysOf s'.created ↔ _
        rw [hs', foldl_settle_created]
        rw [mem_settled_foldl_settle]
        rw [inv.createdIff id]
        constructor
        · rintro (hx | hx)
          · exact Or.inr (Or.inr hx)
          · exact Or.inr (Or.inl hx)
        · rintro (hx | hx | hx)
          · simp [keysOf] at hx
          · exact Or.inr hx
          · exact Or.inl hx
      · intro id hmem
        rw [foldl_settle_created] at hmem
        show id < s'.nextId
        rw [hs', foldl_settle_nextId]
        exact inv.createdLt id hmem
      · intro id hmem
        rw [foldl_settle_created]
        show id ∈ keysOf s.created
        rw [hs', foldl_settle_pubPend] at hmem
        exact inv.pubCreated id hmem

theorem regInv_reach {s : Reg} (h : RegReach s) : RegInv s := by
  induction h with
  | start => exact regInv_start
  | step e _ ih => exact regInv_step _ e ih

end Mcp

namespace Mcp

theorem lookup_eq_none_of_not_mem_keys {l : List (String × Nat)} {m : String}
    (h : m ∉ l.map Prod.fst) : l.lookup m = none := by
  induction l with
  | nil => rfl
  | cons a t ih =>
      have hne : a.1 ≠ m := by
        intro he
        exact h (by simp [he])
      rw [List.lookup]
      rw [show (m == a.1) = false from beq_eq_false_iff_ne.mpr (Ne.symm hne)]
      exact ih (fun hx => h (List.mem_cons_of_mem _ hx))

end Mcp

/-- Claim C1: for every request the client sends, exactly one outcome
is delivered to its awaiter and the pending-registry entry is removed
when the outcome is delivered.  In every reachable registry state the
delivered-outcome log has at most one entry per correlation id, a
pending id has no delivered outcome yet, a delivered id is no longer
pending, and running the `disconnect` clearing loop from the state
empties the registry and leaves every created request with exactly one
delivered outcome. -/
theorem client_request_single_outcome (s : Mcp.Reg) (h : Mcp.RegReach s) :
    (∀ id, (Mcp.keysOf s.settled).count id ≤ 1)
    ∧ (∀ id, id ∈ Mcp.keysOf s.pending → id ∉ Mcp.keysOf s.settled)
    ∧ (∀ id o, (id, o) ∈ s.settled → id ∉ Mcp.keysOf s.pending)
    ∧ (Mcp.regStep s .disconnect).pending = []
    ∧ (∀ id, id ∈ Mcp.keysOf s.created →
        (Mcp.keysOf (Mcp.regStep s .disconnect).settled).count id = 1) := by
  have inv := Mcp.regInv_reach h
  refine ⟨?_, inv.disjoint, ?_, ?_, ?_⟩
  · exact fun id => List.nodup_iff_count_le_one.mp inv.settledNodup id
  · intro id o hm hp
    exact inv.disjoint id hp (Mcp.mem_keysOf.mpr ⟨o, hm⟩)
  · rfl
  · intro id hmem
    have hin : id ∈ Mcp.keysOf (Mcp.regStep s .disconnect).settled := by
      show id ∈ Mcp.keysOf
        (s.pending.foldl (fun acc p => Mcp.settleSlot acc p.1 .cancelled) s).settled
      rw [Mcp.mem_settled_foldl_settle]
      exact ((inv.createdIff id).mp hmem).elim Or.inr Or.inl
    have hnd : (Mcp.keysOf (Mcp.regStep s .disconnect).settled).Nodup := by
      show (Mcp.keysOf
        (s.pending.foldl (fun acc p => Mcp.settleSlot acc p.1 .cancelled) s).settled).Nodup
      exact Mcp.nodup_settled_foldl_settle inv.settledNodup
    exact List.count_eq_one_of_mem hnd hin

/-- Witness for C1 at the registry reached by sending one request:
after the disconnect loop that request has exactly one delivered
outcome. -/
theorem client_request_single_outcome_witness :
    (Mcp.keysOf (Mcp.regStep (Mcp.regStep Mcp.Reg.start (.send "tools/list"))
      .disconnect).settled).count 0 = 1 :=
  (client_request_single_outcome (Mcp.regStep Mcp.Reg.start (.send "tools/list"))
    (Mcp.RegReach.step _ Mcp.RegReach.start)).2.2.2.2 0 (by decide)

/-- Claim C8: the per-method timeout table of the client returns
10000 ms for ping, 60000 ms for the three long-running methods,
30000 ms for the ten listed methods and 30000 ms for every other
method string; and when the timer of a pending request fires, the
pending entry is removed and the awaiter is rejected with a timeout
error naming the method and this duration. -/
theorem client_request_timeouts :
    Mcp.getRequestTimeout "ping" = 10000
    ∧ (Mcp.getRequestTimeout "tools/call" = 60000
       ∧ Mcp.getRequestTimeout "sampling/createMessage" = 60000
       ∧ Mcp.getRequestTimeout "completion/complete" = 60000)
    ∧ (Mcp.getRequestTimeout "initialize" = 30000
       ∧ Mcp.getRequestTimeout "roots/list" = 30000
       ∧ Mcp.getRequestTimeout "resources/list" = 30000
       ∧ Mcp.getRequestTimeout "tools/list" = 30000
       ∧ Mcp.getRequestTimeout "prompts/list" = 30000
       ∧ Mcp.getRequestTimeout "prompts/get" = 30000
       ∧ Mcp.getRequestTimeout "resources/read" = 30000
       ∧ Mcp.getRequestTimeout "resources/templates/list" = 30000
       ∧ Mcp.getRequestTimeout "resources/subscribe" = 30000
       ∧ Mcp.getRequestTimeout "logging/setLevel" = 30000)
    ∧ (∀ m : String, m ∉
        ["initialize", "ping", "roots/list", "resources/list", "tools/list",
         "prompts/list", "prompts/get", "sampling/createMessage", "resources/read",
         "resources/templates/list", "resources/subscribe", "tools/call",
         "completion/complete", "logging/setLevel"] →
        Mcp.getRequestTimeout m = 30000)
    ∧ (∀ (s : Mcp.Reg) (id : Nat) (method : String), Mcp.RegReach s →
        (id, method) ∈ s.pending →
        id ∉ Mcp.keysOf (Mcp.regStep s (.timerFire id)).pending
        ∧ (id, Mcp.Outcome.timeoutErr method (Mcp.getRequestTimeout method)) ∈
            (Mcp.regStep s (.timerFire id)).settled) := by
  refine ⟨by decide, ⟨by decide, by decide, by decide⟩,
    ⟨by decide, by decide, by decide, by decide, by decide, by decide, by decide,
     by decide, by decide, by decide⟩, ?_, ?_⟩
  · intro m hm
    have hkeys : Mcp.timeoutTable.map Prod.fst =
        ["initialize", "ping", "roots/list", "resources/list", "tools/list",
         "prompts/list", "prompts/get", "sampling/createMessage", "resources/read",
         "resources/templates/list", "resources/subscribe", "tools/call",
         "completion/complete", "logging/setLevel"] := by decide
    have hnone : Mcp.timeoutTable.lookup m = none :=
      Mcp.lookup_eq_none_of_not_mem_keys (by rw [hkeys]; exact hm)
    unfold Mcp.getRequestTimeout
    rw [hnone]
    rfl
  · intro s id method hreach hmem
    have inv := Mcp.regInv_reach hreach
    have hfind : s.pending.find? (fun p => p.1 == id) = some (id, method) :=
      Mcp.find?_eq_of_mem_nodupKeys inv.pendingNodup hmem
    have hidp : id ∈ Mcp.keysOf s.pending := Mcp.mem_keysOf.mpr ⟨method, hmem⟩
    have hns : id ∉ Mcp.keysOf s.settled := inv.disjoint id hidp
    have hstep : Mcp.regStep s (.timerFire id) =
        Mcp.settleSlot { s with pending := Mcp.eraseKey s.pending id } id
          (.timeoutErr method (Mcp.getRequestTimeout method)) := by
      rw [Mcp.regStep, hfind]
    constructor
    · rw [hstep, Mcp.settleSlot_pending]
      intro hx
      exact (Mcp.mem_keysOf_eraseKey.mp hx).2 rfl
    · rw [hstep]
      exact Mcp.pair_mem_settled_settleSlot hns

/-- Witness for C8: one request for the tools list times out after
30000 ms and its entry leaves the registry. -/
theorem client_request_timeouts_witness :
    0 ∉ Mcp.keysOf (Mcp.regStep (Mcp.regStep Mcp.Reg.start (.send "tools/list"))
      (.timerFire 0)).pending
    ∧ (0, Mcp.Outcome.timeoutErr "tools/list" (Mcp.getRequestTimeout "tools/list")) ∈
        (Mcp.regStep (Mcp.regStep Mcp.Reg.start (.send "tools/list"))
          (.timerFire 0)).settled :=
  client_request_timeouts.2.2.2.2 (Mcp.regStep Mcp.Reg.start (.send "tools/list"))
    0 "tools/list" (Mcp.RegReach.step _ Mcp.RegReach.start) (by decide)

namespace Mcp

/-- The server configuration fields used by the handlers of
`src/index.ts` (class `McpMqttServer`). -/
structure ServerConfig : Type where
  serverId : String
  serverName : String
  name : String
  version : String
  description : Option String
  capabilities : Option Capabilities
  rbac : Option Unit
deriving DecidableEq

/-- Truthiness of `config.capabilities?.tools?.listChanged`, and also
the value of the same chain with `?? false` used when building the
init response. -/
def toolsLcDecl (cfg : ServerConfig) : Bool :=
  match cfg.capabilities with
  | some c =>
      match c.tools with
      | some t => t.listChanged == some true
      | none => false
  | none => false

/-- Truthiness of `config.capabilities?.resources?.listChanged`. -/
def resourcesLcDecl (cfg : ServerConfig) : Bool :=
  match cfg.capabilities with
  | some c =>
      match c.resources with
      | some r => r.listChanged == some true
      | none => false
  | none => false

/-- Value of `config.capabilities?.resources?.subscribe ?? false`. -/
def resourcesSubDecl (cfg : ServerConfig) : Bool :=
  match cfg.capabilities with
  | some c =>
      match c.resources with
      | some r => r.subscribe == some true
      | none => false
  | none => false

/-- Value of `config.capabilities?.prompts?.listChanged ?? false`. -/
def promptsLcDecl (cfg : ServerConfig) : Bool :=
  match cfg.capabilities with
  | some c =>
      match c.prompts with
      | some p => p.listChanged == some true
      | none => false
  | none => false

/-- The capabilities object of the init response: the defaulted
booleans, with every key present in `config.capabilities` overriding
its defaulted counterpart (the trailing object spread in
`handleInitialize` of `src/index.ts`). -/
def initRespCaps (cfg : ServerConfig) : Capabilities :=
  let base : Capabilities :=
    { logging := some (),
      prompts := some { listChanged := some (promptsLcDecl cfg) },
      resources := some { subscribe := some (resourcesSubDecl cfg),
                          listChanged := some (resourcesLcDecl cfg) },
      tools := some { listChanged := some (toolsLcDecl cfg) } }
  match cfg.capabilities with
  | none => base
  | some c =>
      { logging := match c.logging with | some x => some x | none => base.logging,
        prompts := match c.prompts with | some p => some p | none => base.prompts,
        resources := match c.resources with | some r => some r | none => base.resources,
        tools := match c.tools with | some t => some t | none => base.tools }

/-- The control topic of the server. -/
def serverControlTopic (cfg : ServerConfig) : String :=
  "$mcp-server/" ++ cfg.serverId ++ "/" ++ cfg.serverName

/-- The capability topic of the server. -/
def serverCapabilityTopic (cfg : ServerConfig) : String :=
  "$mcp-server/capability/" ++ cfg.serverId ++ "/" ++ cfg.serverName

/-- The retained presence topic of the server. -/
def serverPresenceTopic (cfg : ServerConfig) : String :=
  "$mcp-server/presence/" ++ cfg.serverId ++ "/" ++ cfg.serverName

/-- The RPC wildcard subscription of the server. -/
def serverRpcPattern (cfg : ServerConfig) : String :=
  "$mcp-rpc/+/" ++ cfg.serverId ++ "/" ++ cfg.serverName

/-- The concrete RPC topic shared by the server and client `cid`. -/
def rpcTopicFor (cfg : ServerConfig) (cid : String) : String :=
  "$mcp-rpc/" ++ cid ++ "/" ++ cfg.serverId ++ "/" ++ cfg.serverName

/-- The per-client capability topic. -/
def clientCapabilityTopic (cid : String) : String :=
  "$mcp-client/capability/" ++ cid

/-- The per-client presence topic. -/
def clientPresenceTopic (cid : String) : String :=
  "$mcp-client/presence/" ++ cid

theorem strApp_cancel {p a b : String} (h : p ++ a = p ++ b) : a = b := by
  have hd : (p ++ a).data = (p ++ b).data := congrArg String.data h
  simp only [String.data_append] at hd
  have h2 := List.append_cancel_left hd
  cases a; cases b
  exact congrArg String.mk h2

theorem clientCapabilityTopic_inj {a b : String}
    (h : clientCapabilityTopic a = clientCapabilityTopic b) : a = b := by
  unfold clientCapabilityTopic at h
  exact strApp_cancel h

theorem clientPresenceTopic_inj {a b : String}
    (h : clientPresenceTopic a = clientPresenceTopic b) : a = b := by
  unfold clientPresenceTopic at h
  exact strApp_cancel h

theorem capTopic_ne_presTopic (a b : String) :
    clientCapabilityTopic a ≠ clientPresenceTopic b := by
  intro h
  unfold clientCapabilityTopic clientPresenceTopic at h
  have hd := congrArg String.data h
  simp only [String.data_append] at hd
  have h13 : (['$', 'm', 'c', 'p', '-', 'c', 'l', 'i', 'e', 'n', 't', '/', 'c', 'a', 'p',
      'a', 'b', 'i', 'l', 'i', 't', 'y', '/'] ++ a.data).take 13 =
      (['$', 'm', 'c', 'p', '-', 'c', 'l', 'i', 'e', 'n', 't', '/', 'p', 'r', 'e', 's',
        'e', 'n', 'c', 'e', '/'] ++ b.data).take 13 := by rw [hd]
  rw [List.take_append_of_le_length (by decide),
    List.take_append_of_le_length (by decide)] at h13
  exact absurd h13 (by decide)

end Mcp

namespace Mcp

/-- Zod check for an optional boolean field. -/
def zodOptBool (v : JsValue) : Bool :=
  match v with
  | .undefV => true
  | .boolV _ => true
  | _ => false

/-- Zod check for the optional `roots` capability object. -/
def zodRootsOk (v : JsValue) : Bool :=
  match v with
  | .undefV => true
  | .obj rf => zodOptBool (getField (.obj rf) "listChanged")
  | _ => false

/-- Zod check for the `capabilities` object of an init request. -/
def zodCapsOk (v : JsValue) : Bool :=
  match v with
  | .obj cf =>
      zodRootsOk (getField (.obj cf) "roots") && zodOptRecord (getField (.obj cf) "sampling")
  | _ => false

/-- Zod check for the `clientInfo` object. -/
def zodClientInfoOk (v : JsValue) : Bool :=
  match v with
  | .obj ci =>
      (match getField (.obj ci) "name" with | .strV _ => true | _ => false)
      && (match getField (.obj ci) "version" with | .strV _ => true | _ => false)
  | _ => false

/-- `InitializeRequestSchema.parse` from `src/types.ts` as a validity
check. -/
def zodValidInit (m : JsValue) : Bool :=
  jsonrpcIs20 m && zodIdOk (getField m "id")
  && (match getField m "method" with | .strV s => s == "initialize" | _ => false)
  && (match getField m "params" with
      | .obj pf =>
          (match getField (.obj pf) "protocolVersion" with | .strV _ => true | _ => false)
          && zodCapsOk (getField (.obj pf) "capabilities")
          && zodClientInfoOk (getField (.obj pf) "clientInfo")
      | _ => false)

/-- The truthy test `parsedMessage.method === the literal init method
and parsedMessage.id` guarding `handleControlMessage`. -/
def isInitEnvelope (m : JsValue) : Bool :=
  (match getField m "method" with | .strV s => s == "initialize" | _ => false)
  && truthy (getField m "id")

/-- The body of a PUBLISH issued by the server. -/
inductive Body : Type where
  | response (r : Response) : Body
  | notif (method : String) : Body
  | serverOnline (serverName description : String) (rbac : Option Unit) : Body
  | emptyPayload : Body

/-- A transport action performed by a handler, in program order. -/
inductive Action : Type where
  | publish (topic : String) (body : Body) (retain : Bool) : Action
  | subscribeTo (topic : String) : Action
  | unsubscribeFrom (topic : String) : Action

/-- Add to a JavaScript `Set` (or to the broker-side subscription
set): append if not already present. -/
def addSet (l : List String) (x : String) : List String :=
  if l.contains x then l else l ++ [x]

/-- `Map.set` on an association list: replace in place when the key
exists, append otherwise. -/
def setKey {α : Type} (l : List (String × α)) (k : String) (v : α) : List (String × α) :=
  if l.any (fun p => p.1 == k) then
    l.map (fun p => if p.1 == k then (k, v) else p)
  else l ++ [(k, v)]

/-- The init response built by `handleInitialize` of `src/index.ts`. -/
def initRespBody (cfg : ServerConfig) (id : JsValue) : Response :=
  respOk id (.initResult "2024-11-05" (initRespCaps cfg) cfg.name cfg.version)

/-- The mutable state of `McpMqttServer`, together with the broker
side subscription set held on the server's behalf. -/
structure SState : Type where
  initialized : Bool
  tools : ToolMap
  resources : ResMap
  connectedClients : List String
  subs : List String

/-- A freshly constructed server. -/
def SState.start : SState :=
  { initialized := false, tools := [], resources := [], connectedClients := [], subs := [] }

/-- The raw payload of a client presence message, before JSON parsing:
whitespace-only, unparseable, or a parsed value. -/
inductive PresPayload : Type where
  | emptyish : PresPayload
  | bad : PresPayload
  | msg (m : JsValue) : PresPayload

/-- The events that drive the server: startup, the control topic, the
RPC topic, the per-client presence and capability topics, the two
registration calls, and shutdown.  A `none` message models a payload
on which `JSON.parse` throws (handled by the catch of
`handleMessage`, which does nothing). -/
inductive SEvent : Type where
  | start : SEvent
  | control (clientId : Option String) (m : Option JsValue) : SEvent
  | rpc (clientId : String) (m : Option JsValue) : SEvent
  | clientPres (clientId : String) (p : PresPayload) : SEvent
  | clientCap (clientId : String) : SEvent
  | regTool (t : ToolDef) (h : ToolHandlerF) : SEvent
  | regRes (r : ResDef) (h : ResHandlerF) : SEvent
  | stop : SEvent

/-- The DisconnectedNotificationSchema check of `src/types.ts`. -/
def zodDisconnected (m : JsValue) : Bool :=
  jsonrpcIs20 m
  && (match getField m "method" with
      | .strV s => s == "notifications/disconnected"
      | _ => false)

/-- One handler invocation of `McpMqttServer` (`src/index.ts`),
returning the successor state and the transport actions it performs in
program order:

* `start` subscribes to the control topic and the RPC pattern, then
  publishes the retained online presence;
* `control` with a valid init request publishes the response on
  the per-client RPC topic first, then subscribes to the two
  per-client topics and records the client
  (`handleControlMessage`); an invalid request changes nothing
  because `handleInitialize` throws before any effect but the
  `isInitialized` flag, which is only set after schema validation;
* `rpc` runs the dispatcher and publishes its response, if any;
* `clientPres` with an empty or unparseable payload only evicts the
  client id; a well-formed disconnected notification also
  unsubscribes from the two per-client topics
  (`handleClientPresence`);
* `regTool` and `regRes` update the map and, when the `initialized`
  flag is set and the matching capability is declared, publish the
  list-changed notification on the capability topic;
* `stop` publishes the retained empty payload. -/
def serverStep (cfg : ServerConfig) (s : SState) : SEvent → SState × List Action
  | .start =>
      ({ s with subs := addSet (addSet s.subs (serverControlTopic cfg)) (serverRpcPattern cfg) },
       [.subscribeTo (serverControlTopic cfg),
        .subscribeTo (serverRpcPattern cfg),
        .publish (serverPresenceTopic cfg)
          (.serverOnline cfg.serverName (cfg.description.getD ("MCP Server: " ++ cfg.name))
            cfg.rbac) true])
  | .control cid mOpt =>
      match mOpt, cid with
      | some m, some c =>
          if isInitEnvelope m then
            if zodValidInit m then
              ({ s with
                  initialized := true
                  connectedClients := addSet s.connectedClients c
                  subs := addSet (addSet s.subs (clientCapabilityTopic c))
                    (clientPresenceTopic c) },
               [.publish (rpcTopicFor cfg c) (.response (initRespBody cfg (getField m "id"))) false,
                .subscribeTo (clientCapabilityTopic c),
                .subscribeTo (clientPresenceTopic c)])
            else (s, [])
          else (s, [])
      | _, _ => (s, [])
  | .rpc c mOpt =>
      match mOpt with
      | none => (s, [])
      | some m =>
          match handleRpcMsg s.tools s.resources m with
          | none => (s, [])
          | some r => (s, [.publish (rpcTopicFor cfg c) (.response r) false])
  | .clientPres c p =>
      match p with
      | .emptyish => ({ s with connectedClients := s.connectedClients.erase c }, [])
      | .bad => ({ s with connectedClients := s.connectedClients.erase c }, [])
      | .msg m =>
          if zodDisconnected m then
            ({ s with
                connectedClients := s.connectedClients.erase c
                subs := (s.subs.erase (clientCapabilityTopic c)).erase (clientPresenceTopic c) },
             [.unsubscribeFrom (clientCapabilityTopic c),
              .unsubscribeFrom (clientPresenceTopic c)])
          else
            ({ s with connectedClients := s.connectedClients.erase c }, [])
  | .clientCap _ => (s, [])
  | .regTool t h =>
      ({ s with tools := setKey s.tools t.name (t, h) },
       if s.initialized && toolsLcDecl cfg then
         [.publish (serverCapabilityTopic cfg) (.notif "notifications/tools/list_changed") false]
       else [])
  | .regRes r h =>
      ({ s with resources := setKey s.resources r.uri (r, h) },
       if s.initialized && resourcesLcDecl cfg then
         [.publish (serverCapabilityTopic cfg) (.notif "notifications/resources/list_changed") false]
       else [])
  | .stop => (s, [.publish (serverPresenceTopic cfg) .emptyPayload true])

/-- Run a list of server events, accumulating the published actions. -/
def serverRun (cfg : ServerConfig) (s : SState) : List SEvent → SState × List Action
  | [] => (s, [])
  | e :: es =>
      let r := serverStep cfg s e
      let rest := serverRun cfg r.1 es
      (rest.1, r.2 ++ rest.2)

/-- The server states reachable from a freshly constructed server. -/
inductive SReach (cfg : ServerConfig) : SState → Prop where
  | start : SReach cfg SState.start
  | step {s : SState} (e : SEvent) : SReach cfg s → SReach cfg (serverStep cfg s e).1

end Mcp

namespace Mcp

/-- Key projection of a string-keyed association list. -/
def keysS {α : Type} (l : List (String × α)) : List String :=
  l.map Prod.fst

/-- `Map.delete` on a string-keyed association list. -/
def eraseKeyS {α : Type} (l : List (String × α)) (k : String) : List (String × α) :=
  l.filter (fun p => p.1 != k)

/-- `Map.get` on a string-keyed association list. -/
def lookupKey {α : Type} (l : List (String × α)) (k : String) : Option α :=
  match l.find? (fun p => p.1 == k) with
  | some p => some p.2
  | none => none

theorem mem_keysS {α : Type} {l : List (String × α)} {k : String} :
    k ∈ keysS l ↔ ∃ b, (k, b) ∈ l := by
  simp only [keysS, List.mem_map]
  constructor
  · rintro ⟨⟨a, b⟩, hmem, rfl⟩
    exact ⟨b, hmem⟩
  · rintro ⟨b, hmem⟩
    exact ⟨(k, b), hmem, rfl⟩

theorem mem_keysS_eraseKeyS {α : Type} {l : List (String × α)} {k x : String} :
    x ∈ keysS (eraseKeyS l k) ↔ x ∈ keysS l ∧ x ≠ k := by
  simp only [mem_keysS, eraseKeyS, List.mem_filter, bne_iff_ne, ne_eq]
  constructor
  · rintro ⟨b, hmem, hne⟩
    exact ⟨⟨b, hmem⟩, hne⟩
  · rintro ⟨⟨b, hmem⟩, hne⟩
    exact ⟨b, hmem, hne⟩

theorem any_key_iff_mem_keysS {α : Type} {l : List (String × α)} {k : String} :
    l.any (fun p => p.1 == k) = true ↔ k ∈ keysS l := by
  simp only [List.any_eq_true, beq_iff_eq, mem_keysS]
  constructor
  · rintro ⟨⟨a, b⟩, hmem, rfl⟩
    exact ⟨b, hmem⟩
  · rintro ⟨b, hmem⟩
    exact ⟨(k, b), hmem, rfl⟩

theorem keysS_setKey {α : Type} {l : List (String × α)} {k : String} {v : α} :
    keysS (setKey l k v) =
      if l.any (fun p => p.1 == k) then keysS l else keysS l ++ [k] := by
  unfold setKey keysS
  by_cases h : l.any (fun p => p.1 == k) = true
  · rw [if_pos h, if_pos h, List.map_map]
    apply List.map_congr_left
    intro p _
    by_cases hpk : (p.1 == k) = true
    · simp only [Function.comp_apply, if_pos hpk]
      exact (eq_of_beq hpk).symm
    · simp only [Function.comp_apply, if_neg hpk]
  · rw [if_neg h, if_neg h, List.map_append]
    rfl

theorem mem_keysS_setKey {α : Type} {l : List (String × α)} {k x : String} {v : α} :
    x ∈ keysS (setKey l k v) ↔ x ∈ keysS l ∨ x = k := by
  rw [keysS_setKey]
  by_cases h : l.any (fun p => p.1 == k) = true
  · rw [if_pos h]
    have hk : k ∈ keysS l := any_key_iff_mem_keysS.mp h
    constructor
    · exact Or.inl
    · rintro (hx | rfl)
      · exact hx
      · exact hk
  · rw [if_neg h]
    simp

theorem mem_addSet_iff {l : List String} {x y : String} :
    y ∈ addSet l x ↔ y ∈ l ∨ y = x := by
  unfold addSet
  by_cases h : l.contains x
  · rw [if_pos h]
    have hx : x ∈ l := by simpa using h
    constructor
    · exact Or.inl
    · rintro (hy | rfl)
      · exact hy
      · exact hx
  · rw [if_neg h]
    simp [List.mem_append]

theorem mem_addSet_of_mem {l : List String} {x y : String} (h : y ∈ l) :
    y ∈ addSet l x := mem_addSet_iff.mpr (Or.inl h)

theorem mem_addSet_self {l : List String} {x : String} : x ∈ addSet l x :=
  mem_addSet_iff.mpr (Or.inr rfl)

theorem nodup_addSet {l : List String} {x : String} (h : l.Nodup) :
    (addSet l x).Nodup := by
  unfold addSet
  by_cases hc : l.contains x
  · rw [if_pos hc]; exact h
  · rw [if_neg hc]
    have hx : x ∉ l := by simpa using hc
    simp [List.nodup_append, h, hx]

/-- A client-side `ServerInfo` record from `src/client/mcp-client.ts`. -/
structure CServerInfo : Type where
  serverName : String
  description : String
  name : String
  version : String
  caps : Capabilities
  rbac : Option Unit
deriving DecidableEq

/-- The provisional capabilities filled in on discovery. -/
def provisionalCaps : Capabilities :=
  { logging := some (),
    prompts := some { listChanged := some false },
    resources := some { subscribe := some false, listChanged := some false },
    tools := some { listChanged := some false } }

/-- The client state relevant to the server tables: the discovered and
connected maps, and the suspended `initializeServer` continuations
(one per awaited initialize response, carrying the `ServerInfo`
captured before the await). -/
structure CState : Type where
  discovered : List (String × CServerInfo)
  connected : List (String × CServerInfo)
  initPend : List (Nat × String × CServerInfo)
  nextReq : Nat
deriving DecidableEq

/-- A freshly connected client. -/
def CState.start : CState :=
  { discovered := [], connected := [], initPend := [], nextReq := 0 }

/-- A server presence message after parsing: empty payload, a valid
online notification, or a parse failure. -/
inductive PresenceEvt : Type where
  | offline : PresenceEvt
  | online (serverName description : String) (rbac : Option Unit) : PresenceEvt
  | bad : PresenceEvt
deriving DecidableEq

/-- The body of a PUBLISH issued by the client on this path. -/
inductive CBody : Type where
  | initRequest : CBody
  | initializedNotif : CBody
  | disconnectedNotif : CBody
deriving DecidableEq

/-- A transport action performed by the client. -/
inductive CAction : Type where
  | publish (topic : String) (body : CBody) : CAction
deriving DecidableEq

/-- The events that drive the client's server tables, following
`src/client/mcp-client.ts`: a presence message on
`$mcp-server/presence/{sid}/...` (`handleServerPresence`), the prefix
of `initializeServer` up to the await of the initialize response, the
resumption of that await with a successful or failed response, and a
`notifications/disconnected` on the RPC topic (`handleRpcMessage`). -/
inductive CEvent : Type where
  | presence (serverId : String) (p : PresenceEvt) : CEvent
  | initStart (serverId : String) : CEvent
  | initOk (reqId : Nat) (respName respVersion : String) (caps : Capabilities) : CEvent
  | initErr (reqId : Nat) : CEvent
  | rpcDisc (serverId : String) : CEvent
deriving DecidableEq

/-- One atomic event-loop turn of the client's server tables:

* an empty presence payload deletes the server from both maps; a
  valid online notification stores the provisional `ServerInfo` in
  `discoveredServers`; a parse failure changes nothing;
* `initStart` requires the server to be discovered (otherwise
  `initializeServer` throws before any effect), captures its
  `ServerInfo`, and publishes the initialize request on the control
  topic; the function then suspends awaiting the response;
* `initOk` is the resumption after the response arrived: the
  captured info is merged with the response and stored in
  `connectedServers`, and only then is `notifications/initialized`
  published on the RPC topic;
* `initErr` models a rejected response (error, timeout or
  cancellation): the continuation throws, nothing is stored;
* `rpcDisc` deletes the server from `connectedServers` only. -/
def clientStep (cid : String) (s : CState) : CEvent → CState × List CAction
  | .presence sid p =>
      match p with
      | .offline =>
          ({ s with
              discovered := eraseKeyS s.discovered sid
              connected := eraseKeyS s.connected sid }, [])
      | .online sn d rb =>
          let info : CServerInfo :=
            { serverName := sn, description := d, name := sn, version := "1.0.0",
              caps := provisionalCaps, rbac := rb }
          ({ s with discovered := setKey s.discovered sid info }, [])
      | .bad => (s, [])
  | .initStart sid =>
      match lookupKey s.discovered sid with
      | none => (s, [])
      | some info =>
          ({ s with
              initPend := (s.nextReq, sid, info) :: s.initPend
              nextReq := s.nextReq + 1 },
           [.publish ("$mcp-server/" ++ sid ++ "/" ++ info.serverName) .initRequest])
  | .initOk rid n v caps =>
      match s.initPend.find? (fun p => p.1 == rid) with
      | none => (s, [])
      | some q =>
          let updated : CServerInfo := { q.2.2 with name := n, version := v, caps := caps }
          ({ s with
              initPend := s.initPend.filter (fun p => p.1 != rid)
              connected := setKey s.connected q.2.1 updated },
           [.publish ("$mcp-rpc/" ++ cid ++ "/" ++ q.2.1 ++ "/" ++ q.2.2.serverName)
              .initializedNotif])
  | .initErr rid =>
      ({ s with initPend := s.initPend.filter (fun p => p.1 != rid) }, [])
  | .rpcDisc sid =>
      ({ s with connected := eraseKeyS s.connected sid }, [])

/-- The client states reachable from a fresh client. -/
inductive CReach (cid : String) : CState → Prop where
  | start : CReach cid CState.start
  | step {s : CState} (e : CEvent) : CReach cid s → CReach cid (clientStep cid s e).1

end Mcp

namespace Mcp

/-- A concrete server configuration used to instantiate theorems. -/
def cfgDemo : ServerConfig :=
  { serverId := "S1", serverName := "demo/calc", name := "Calc", version := "1.0.0",
    description := none, capabilities := none, rbac := none }

/-- A concrete valid initialize request. -/
def initMsgDemo : JsValue :=
  .obj [("jsonrpc", .strV "2.0"), ("id", .strV "r1"), ("method", .strV "initialize"),
    ("params", .obj [("protocolVersion", .strV "2024-11-05"),
      ("capabilities", .obj []),
      ("clientInfo", .obj [("name", .strV "cli"), ("version", .strV "1.0.0")])])]

end Mcp

/-- Claim C2: the initialization handshake is ordered.  On the server
(`handleControlMessage` in `src/index.ts`), handling a valid
initialize request from client `c` performs exactly the action list
whose first element publishes the initialize response on the RPC topic
for `c` and whose later elements subscribe to the per-client
capability and presence topics, so the response publish strictly
precedes both subscriptions, and `c` is recorded in
`connectedClients`.  On the client (`initializeServer` in
`src/client/mcp-client.ts`), a publish of `notifications/initialized`
happens only in the resumption step triggered by the arrival of the
initialize response, and in the state produced by that very step the
server already sits in `connectedServers` (the source inserts into the
map before publishing the notification). -/
theorem initialize_handshake_ordering :
    (∀ (cfg : Mcp.ServerConfig) (s : Mcp.SState) (c : String) (m : Mcp.JsValue),
      Mcp.isInitEnvelope m = true → Mcp.zodValidInit m = true →
      (Mcp.serverStep cfg s (.control (some c) (some m))).2 =
        [.publish (Mcp.rpcTopicFor cfg c)
            (.response (Mcp.initRespBody cfg (Mcp.getField m "id"))) false,
         .subscribeTo (Mcp.clientCapabilityTopic c),
         .subscribeTo (Mcp.clientPresenceTopic c)]
      ∧ c ∈ (Mcp.serverStep cfg s (.control (some c) (some m))).1.connectedClients)
    ∧ (∀ (cid : String) (s : Mcp.CState) (e : Mcp.CEvent) (t : String),
        Mcp.CAction.publish t .initializedNotif ∈ (Mcp.clientStep cid s e).2 →
        (∃ rid n v caps, e = Mcp.CEvent.initOk rid n v caps)
        ∧ ∃ sid, sid ∈ Mcp.keysS (Mcp.clientStep cid s e).1.connected
            ∧ ∃ sn, t = "$mcp-rpc/" ++ cid ++ "/" ++ sid ++ "/" ++ sn) := by
  constructor
  · intro cfg s c m h1 h2
    constructor
    · simp only [Mcp.serverStep, h1, h2, if_true]
    · simp only [Mcp.serverStep, h1, h2, if_true]
      exact Mcp.mem_addSet_self
  · intro cid s e t hmem
    cases e with
    | presence sid p =>
        cases p <;> simp [Mcp.clientStep] at hmem
    | initStart sid =>
        cases hL : Mcp.lookupKey s.discovered sid with
        | none => simp [Mcp.clientStep, hL] at hmem
        | some info => simp [Mcp.clientStep, hL] at hmem
    | initErr rid =>
        simp [Mcp.clientStep] at hmem
    | rpcDisc sid =>
        simp [Mcp.clientStep] at hmem
    | initOk rid n v caps =>
        cases hF : s.initPend.find? (fun p => p.1 == rid) with
        | none => simp [Mcp.clientStep, hF] at hmem
        | some q =>
            simp only [Mcp.clientStep, hF, List.mem_singleton] at hmem
            have ht : t = "$mcp-rpc/" ++ cid ++ "/" ++ q.2.1 ++ "/" ++ q.2.2.serverName := by
              have := congrArg (fun a => match a with
                | Mcp.CAction.publish tp _ => tp) hmem
              simpa using this
            refine ⟨⟨rid, n, v, caps, rfl⟩, q.2.1, ?_, q.2.2.serverName, ht⟩
            simp only [Mcp.clientStep, hF]
            exact Mcp.mem_keysS_setKey.mpr (Or.inr rfl)

/-- Witness for C2: the handshake of the demo server and one client,
with both conclusions instantiated concretely. -/
theorem initialize_handshake_ordering_witness :
    ((Mcp.serverStep Mcp.cfgDemo Mcp.SState.start (.control (some "C1") (some Mcp.initMsgDemo))).2 =
      [.publish (Mcp.rpcTopicFor Mcp.cfgDemo "C1")
          (.response (Mcp.initRespBody Mcp.cfgDemo (Mcp.getField Mcp.initMsgDemo "id"))) false,
       .subscribeTo (Mcp.clientCapabilityTopic "C1"),
       .subscribeTo (Mcp.clientPresenceTopic "C1")]
     ∧ "C1" ∈ (Mcp.serverStep Mcp.cfgDemo Mcp.SState.start
        (.control (some "C1") (some Mcp.initMsgDemo))).1.connectedClients)
    ∧ ((∃ rid n v caps,
          Mcp.CEvent.initOk 0 "Calc" "1.0.0" Mcp.provisionalCaps =
            Mcp.CEvent.initOk rid n v caps)
        ∧ ∃ sid, sid ∈ Mcp.keysS (Mcp.clientStep "C1"
            { discovered := [], connected := [],
              initPend := [(0, "S1",
                { serverName := "demo/calc", description := "d", name := "demo/calc",
                  version := "1.0.0", caps := Mcp.provisionalCaps, rbac := none })],
              nextReq := 1 }
            (.initOk 0 "Calc" "1.0.0" Mcp.provisionalCaps)).1.connected
          ∧ ∃ sn, "$mcp-rpc/C1/S1/demo/calc" = "$mcp-rpc/" ++ "C1" ++ "/" ++ sid ++ "/" ++ sn) :=
  ⟨initialize_handshake_ordering.1 Mcp.cfgDemo Mcp.SState.start "C1" Mcp.initMsgDemo
      (by decide) (by decide),
   initialize_handshake_ordering.2 "C1" _ _ "$mcp-rpc/C1/S1/demo/calc" (by decide)⟩

namespace Mcp

/-- The client state after: a server comes online, the client starts
initializing it, an empty presence payload arrives while the
initialize response is awaited, and then the response arrives and the
suspended `initializeServer` resumes. -/
def raceState : CState :=
  (clientStep "C1"
    (clientStep "C1"
      (clientStep "C1"
        (clientStep "C1" CState.start (.presence "S1" (.online "demo/calc" "d" none))).1
        (.initStart "S1")).1
      (.presence "S1" .offline)).1
    (.initOk 0 "Calc" "2.0.0" provisionalCaps)).1

end Mcp

/-- Counterexample to claim C7: the subset invariant
`connected_servers keys are a subset of discovered_servers keys` fails
at a reachable client state.  `initializeServer` checks
`discoveredServers` before awaiting the initialize response; an empty
presence payload arriving during the await deletes the server from
both maps, and the resumption then re-inserts it into
`connectedServers` only, without re-checking.  The final state is
reachable and has the server connected but not discovered. -/
theorem client_tables_subset_cex :
    Mcp.CReach "C1" Mcp.raceState
    ∧ "S1" ∈ Mcp.keysS Mcp.raceState.connected
    ∧ "S1" ∉ Mcp.keysS Mcp.raceState.discovered :=
  ⟨Mcp.CReach.step _ (Mcp.CReach.step _ (Mcp.CReach.step _
      (Mcp.CReach.step _ Mcp.CReach.start))),
   by decide, by decide⟩

/-- Claim C7 amended: every client operation preserves the inclusion
of `connectedServers` keys in `discoveredServers` keys, except the
resumption of `initializeServer` after its awaited response, which
preserves it only when the server of the matching suspended
continuation is still discovered at resumption time.  An empty
presence payload arriving while an initialize is in flight therefore
breaks the inclusion (see the counterexample), and every other
interleaving maintains it. -/
theorem client_tables_subset_amended (cid : String) (s : Mcp.CState) (e : Mcp.CEvent)
    (hsub : ∀ x, x ∈ Mcp.keysS s.connected → x ∈ Mcp.keysS s.discovered)
    (hok : ∀ rid n v caps, e = Mcp.CEvent.initOk rid n v caps →
      ∀ q ∈ s.initPend, q.1 = rid → q.2.1 ∈ Mcp.keysS s.discovered) :
    ∀ x, x ∈ Mcp.keysS (Mcp.clientStep cid s e).1.connected →
      x ∈ Mcp.keysS (Mcp.clientStep cid s e).1.discovered := by
  cases e with
  | presence sid p =>
      cases p with
      | offline =>
          intro x hx
          simp only [Mcp.clientStep] at hx ⊢
          obtain ⟨hx, hne⟩ := Mcp.mem_keysS_eraseKeyS.mp hx
          exact Mcp.mem_keysS_eraseKeyS.mpr ⟨hsub x hx, hne⟩
      | online sn d rb =>
          intro x hx
          simp only [Mcp.clientStep] at hx ⊢
          exact Mcp.mem_keysS_setKey.mpr (Or.inl (hsub x hx))
      | bad =>
          intro x hx
          simpa only [Mcp.clientStep] using hsub x hx
  | initStart sid =>
      cases hL : Mcp.lookupKey s.discovered sid with
      | none =>
          intro x hx
          simp only [Mcp.clientStep, hL] at hx ⊢
          exact hsub x hx
      | some info =>
          intro x hx
          simp only [Mcp.clientStep, hL] at hx ⊢
          exact hsub x hx
  | initOk rid n v caps =>
      cases hF : s.initPend.find? (fun p => p.1 == rid) with
      | none =>
          intro x hx
          simp only [Mcp.clientStep, hF] at hx ⊢
          exact hsub x hx
      | some q =>
          intro x hx
          simp only [Mcp.clientStep, hF] at hx ⊢
          rcases Mcp.mem_keysS_setKey.mp hx with hx | rfl
          · exact hsub x hx
          · have hqmem : q ∈ s.initPend := List.mem_of_find?_eq_some hF
            have hqk : q.1 = rid := by
              have := List.find?_some hF
              simpa using this
            exact hok rid n v caps rfl q hqmem hqk
  | initErr rid =>
      intro x hx
      simp only [Mcp.clientStep] at hx ⊢
      exact hsub x hx
  | rpcDisc sid =>
      intro x hx
      simp only [Mcp.clientStep] at hx ⊢
      obtain ⟨hx, _⟩ := Mcp.mem_keysS_eraseKeyS.mp hx
      exact hsub x hx

/-- Witness for the amended C7 at a concrete state: a step that is not
an initialize resumption preserves the inclusion. -/
theorem client_tables_subset_amended_witness :
    "S1" ∈ Mcp.keysS (Mcp.clientStep "C1"
      { discovered := [("S1",
          { serverName := "demo/calc", description := "d", name := "demo/calc",
            version := "1.0.0", caps := Mcp.provisionalCaps, rbac := none })],
        connected := [("S1",
          { serverName := "demo/calc", description := "d", name := "demo/calc",
            version := "1.0.0", caps := Mcp.provisionalCaps, rbac := none })],
        initPend := [], nextReq := 0 }
      (.presence "S2" .bad)).1.discovered :=
  client_tables_subset_amended "C1"
    { discovered := [("S1",
        { serverName := "demo/calc", description := "d", name := "demo/calc",
          version := "1.0.0", caps := Mcp.provisionalCaps, rbac := none })],
      connected := [("S1",
        { serverName := "demo/calc", description := "d", name := "demo/calc",
          version := "1.0.0", caps := Mcp.provisionalCaps, rbac := none })],
      initPend := [], nextReq := 0 }
    (.presence "S2" .bad)
    (fun x hx => hx)
    (fun rid n v caps heq => nomatch heq)
    "S1" (by decide)

namespace Mcp

/-- The server state after a valid initialize handshake with client
`C1` followed by an empty payload on the client presence topic. -/
def evictState : SState :=
  (serverStep cfgDemo
    (serverStep cfgDemo SState.start (.control (some "C1") (some initMsgDemo))).1
    (.clientPres "C1" .emptyish)).1

/-- The inductive invariant that does hold on the server:
`connectedClients` has no duplicates, and every connected client has
both per-client subscriptions active. -/
structure SInvP (s : SState) : Prop where
  ccNodup : s.connectedClients.Nodup
  subsHas : ∀ c ∈ s.connectedClients,
    clientCapabilityTopic c ∈ s.subs ∧ clientPresenceTopic c ∈ s.subs

theorem nodup_addSet_clients {l : List String} {x : String} (h : l.Nodup) :
    (addSet l x).Nodup := nodup_addSet h

theorem sInvP_step (cfg : ServerConfig) (s : SState) (e : SEvent) (inv : SInvP s) :
    SInvP (serverStep cfg s e).1 := by
  cases e with
  | start =>
      refine ⟨inv.ccNodup, ?_⟩
      intro c hc
      obtain ⟨h1, h2⟩ := inv.subsHas c hc
      exact ⟨mem_addSet_of_mem (mem_addSet_of_mem h1),
        mem_addSet_of_mem (mem_addSet_of_mem h2)⟩
  | control cid mOpt =>
      match mOpt, cid with
      | some m, some c =>
          by_cases h1 : isInitEnvelope m = true
          · by_cases h2 : zodValidInit m = true
            · simp only [serverStep, h1, h2, if_true]
              refine ⟨nodup_addSet inv.ccNodup, ?_⟩
              intro c' hc'
              rcases mem_addSet_iff.mp hc' with hc' | rfl
              · obtain ⟨ha, hb⟩ := inv.subsHas c' hc'
                exact ⟨mem_addSet_of_mem (mem_addSet_of_mem ha),
                  mem_addSet_of_mem (mem_addSet_of_mem hb)⟩
              · exact ⟨mem_addSet_of_mem mem_addSet_self, mem_addSet_self⟩
            · simp only [serverStep, h1, if_true, if_neg h2]
              exact inv
          · simp only [serverStep, if_neg h1]
            exact inv
      | some _, none => exact inv
      | none, some _ => exact inv
      | none, none => exact inv
  | rpc c mOpt =>
      match mOpt with
      | none => exact inv
      | some m =>
          cases hR : handleRpcMsg s.tools s.resources m with
          | none => simpa only [serverStep, hR] using inv
          | some r => simpa only [serverStep, hR] using inv
  | clientPres c p =>
      cases p with
      | emptyish =>
          refine ⟨inv.ccNodup.erase _, ?_⟩
          intro c' hc'
          exact inv.subsHas c' (List.mem_of_mem_erase hc')
      | bad =>
          refine ⟨inv.ccNodup.erase _, ?_⟩
          intro c' hc'
          exact inv.subsHas c' (List.mem_of_mem_erase hc')
      | msg m =>
          by_cases hz : zodDisconnected m = true
          · simp only [serverStep, hz, if_true]
            refine ⟨inv.ccNodup.erase _, ?_⟩
            intro c' hc'
            have hpair := (inv.ccNodup.mem_erase_iff).mp hc'
            obtain ⟨hne, hcc⟩ := hpair
            obtain ⟨ha, hb⟩ := inv.subsHas c' hcc
            have hcapne : clientCapabilityTopic c' ≠ clientCapabilityTopic c :=
              fun h => hne (clientCapabilityTopic_inj h)
            have hpresne : clientPresenceTopic c' ≠ clientPresenceTopic c :=
              fun h => hne (clientPresenceTopic_inj h)
            have hcp : clientCapabilityTopic c' ≠ clientPresenceTopic c :=
              capTopic_ne_presTopic c' c
            have hpc : clientPresenceTopic c' ≠ clientCapabilityTopic c :=
              fun h => capTopic_ne_presTopic c c' h.symm
            constructor
            · exact (List.mem_erase_of_ne hcp).mpr ((List.mem_erase_of_ne hcapne).mpr ha)
            · exact (List.mem_erase_of_ne hpresne).mpr ((List.mem_erase_of_ne hpc).mpr hb)
          · simp only [serverStep, if_neg hz]
            refine ⟨inv.ccNodup.erase _, ?_⟩
            intro c' hc'
            exact inv.subsHas c' (List.mem_of_mem_erase hc')
  | clientCap c => exact inv
  | regTool t h =>
      refine ⟨inv.ccNodup, ?_⟩
      intro c hc
      exact inv.subsHas c hc
  | regRes r h =>
      refine ⟨inv.ccNodup, ?_⟩
      intro c hc
      exact inv.subsHas c hc
  | stop => exact inv

theorem sInvP_reach {cfg : ServerConfig} {s : SState} (h : SReach cfg s) : SInvP s := by
  induction h with
  | start => exact ⟨List.nodup_nil, by intro c hc; cases hc⟩
  | step e _ ih => exact sInvP_step _ _ e ih

end Mcp

/-- Counterexample to claim C3: the two-sided correspondence between
`connectedClients` and the per-client subscription set fails.  After a
valid initialize from client `C1` (which subscribes to both per-client
topics) an empty payload on the client presence topic removes `C1`
from `connectedClients` but performs no unsubscribe
(`handleClientPresence` in `src/index.ts` only unsubscribes on a
successfully parsed disconnected notification), so the reachable state
has `C1` outside the set while both subscriptions are still held. -/
theorem server_client_subscriptions_cex :
    Mcp.SReach Mcp.cfgDemo Mcp.evictState
    ∧ "C1" ∉ Mcp.evictState.connectedClients
    ∧ Mcp.clientCapabilityTopic "C1" ∈ Mcp.evictState.subs
    ∧ Mcp.clientPresenceTopic "C1" ∈ Mcp.evictState.subs :=
  ⟨Mcp.SReach.step _ (Mcp.SReach.step _ Mcp.SReach.start), by decide, by decide, by decide⟩

/-- Claim C3 amended: at every reachable server state, every client id
in `connectedClients` has both per-client subscriptions active; the
converse direction fails, because the empty-payload and parse-failure
paths of the presence handler evict the client while keeping both
subscriptions (only a successfully parsed disconnected notification
unsubscribes). -/
theorem server_client_subscriptions_forward (cfg : Mcp.ServerConfig) (s : Mcp.SState)
    (h : Mcp.SReach cfg s) :
    ∀ c ∈ s.connectedClients,
      Mcp.clientCapabilityTopic c ∈ s.subs ∧ Mcp.clientPresenceTopic c ∈ s.subs :=
  (Mcp.sInvP_reach h).subsHas

/-- Witness for the amended C3: in the state reached by one valid
initialize, the connected client holds both subscriptions. -/
theorem server_client_subscriptions_forward_witness :
    Mcp.clientCapabilityTopic "C1" ∈
      (Mcp.serverStep Mcp.cfgDemo Mcp.SState.start
        (.control (some "C1") (some Mcp.initMsgDemo))).1.subs
    ∧ Mcp.clientPresenceTopic "C1" ∈
      (Mcp.serverStep Mcp.cfgDemo Mcp.SState.start
        (.control (some "C1") (some Mcp.initMsgDemo))).1.subs :=
  server_client_subscriptions_forward Mcp.cfgDemo _
    (Mcp.SReach.step _ Mcp.SReach.start) "C1" (by decide)

namespace Mcp

theorem serverStep_no_toolsNotif (cfg : ServerConfig) (hlc : toolsLcDecl cfg = false)
    (s : SState) (e : SEvent) (t : String) (rt : Bool) :
    Action.publish t (.notif "notifications/tools/list_changed") rt ∉ (serverStep cfg s e).2 := by
  cases e with
  | start => simp [serverStep]
  | control cid mOpt =>
      match mOpt, cid with
      | some m, some c =>
          by_cases h1 : isInitEnvelope m = true
          · by_cases h2 : zodValidInit m = true
            · simp [serverStep, h1, h2]
            · simp [serverStep, h1, h2]
          · simp [serverStep, h1]
      | some _, none => simp [serverStep]
      | none, some _ => simp [serverStep]
      | none, none => simp [serverStep]
  | rpc c mOpt =>
      match mOpt with
      | none => simp [serverStep]
      | some m =>
          cases hR : handleRpcMsg s.tools s.resources m with
          | none => simp [serverStep, hR]
          | some r => simp [serverStep, hR]
  | clientPres c p =>
      cases p with
      | emptyish => simp [serverStep]
      | bad => simp [serverStep]
      | msg m =>
          by_cases hz : zodDisconnected m = true
          · simp [serverStep, hz]
          · simp [serverStep, hz]
  | clientCap c => simp [serverStep]
  | regTool td h => simp [serverStep, hlc]
  | regRes rd h =>
      by_cases hc : (s.initialized && resourcesLcDecl cfg) = true
      · simp [serverStep, hc]
      · simp [serverStep, hc]
  | stop => simp [serverStep]

theorem serverStep_no_resourcesNotif (cfg : ServerConfig)
    (hlc : resourcesLcDecl cfg = false) (s : SState) (e : SEvent) (t : String) (rt : Bool) :
    Action.publish t (.notif "notifications/resources/list_changed") rt ∉
      (serverStep cfg s e).2 := by
  cases e with
  | start => simp [serverStep]
  | control cid mOpt =>
      match mOpt, cid with
      | some m, some c =>
          by_cases h1 : isInitEnvelope m = true
          · by_cases h2 : zodValidInit m = true
            · simp [serverStep, h1, h2]
            · simp [serverStep, h1, h2]
          · simp [serverStep, h1]
      | some _, none => simp [serverStep]
      | none, some _ => simp [serverStep]
      | none, none => simp [serverStep]
  | rpc c mOpt =>
      match mOpt with
      | none => simp [serverStep]
      | some m =>
          cases hR : handleRpcMsg s.tools s.resources m with
          | none => simp [serverStep, hR]
          | some r => simp [serverStep, hR]
  | clientPres c p =>
      cases p with
      | emptyish => simp [serverStep]
      | bad => simp [serverStep]
      | msg m =>
          by_cases hz : zodDisconnected m = true
          · simp [serverStep, hz]
          · simp [serverStep, hz]
  | clientCap c => simp [serverStep]
  | regTool td h =>
      by_cases hc : (s.initialized && toolsLcDecl cfg) = true
      · simp [serverStep, hc]
      · simp [serverStep, hc]
  | regRes rd h => simp [serverStep, hlc]
  | stop => simp [serverStep]

theorem serverRun_no_toolsNotif (cfg : ServerConfig) (hlc : toolsLcDecl cfg = false)
    (s : SState) (evs : List SEvent) (t : String) (rt : Bool) :
    Action.publish t (.notif "notifications/tools/list_changed") rt ∉
      (serverRun cfg s evs).2 := by
  induction evs generalizing s with
  | nil => simp [serverRun]
  | cons e es ih =>
      simp only [serverRun, List.mem_append]
      rintro (hx | hx)
      · exact serverStep_no_toolsNotif cfg hlc s e t rt hx
      · exact ih _ hx

theorem serverRun_no_resourcesNotif (cfg : ServerConfig)
    (hlc : resourcesLcDecl cfg = false) (s : SState) (evs : List SEvent)
    (t : String) (rt : Bool) :
    Action.publish t (.notif "notifications/resources/list_changed") rt ∉
      (serverRun cfg s evs).2 := by
  induction evs generalizing s with
  | nil => simp [serverRun]
  | cons e es ih =>
      simp only [serverRun, List.mem_append]
      rintro (hx | hx)
      · exact serverStep_no_resourcesNotif cfg hlc s e t rt hx
      · exact ih _ hx

end Mcp

/-- Claim C6: a registration before the `initialized` flag is set
publishes nothing; one after the flag is set publishes the matching
`list_changed` notification on the capability topic exactly when the
corresponding capability declares `listChanged = true`; and with the
capability false or absent no such notification is published by any
execution of the server. -/
theorem registration_listchanged_notifications (cfg : Mcp.ServerConfig) :
    (∀ (s : Mcp.SState) (t : Mcp.ToolDef) (h : Mcp.ToolHandlerF),
      s.initialized = false → (Mcp.serverStep cfg s (.regTool t h)).2 = [])
    ∧ (∀ (s : Mcp.SState) (r : Mcp.ResDef) (h : Mcp.ResHandlerF),
      s.initialized = false → (Mcp.serverStep cfg s (.regRes r h)).2 = [])
    ∧ (∀ (s : Mcp.SState) (t : Mcp.ToolDef) (h : Mcp.ToolHandlerF),
      s.initialized = true →
      ((Mcp.serverStep cfg s (.regTool t h)).2 =
        [.publish (Mcp.serverCapabilityTopic cfg)
          (.notif "notifications/tools/list_changed") false]
        ↔ Mcp.toolsLcDecl cfg = true))
    ∧ (∀ (s : Mcp.SState) (r : Mcp.ResDef) (h : Mcp.ResHandlerF),
      s.initialized = true →
      ((Mcp.serverStep cfg s (.regRes r h)).2 =
        [.publish (Mcp.serverCapabilityTopic cfg)
          (.notif "notifications/resources/list_changed") false]
        ↔ Mcp.resourcesLcDecl cfg = true))
    ∧ (Mcp.toolsLcDecl cfg = false →
      ∀ (s : Mcp.SState) (evs : List Mcp.SEvent) (t : String) (rt : Bool),
        Mcp.Action.publish t (.notif "notifications/tools/list_changed") rt ∉
          (Mcp.serverRun cfg s evs).2)
    ∧ (Mcp.resourcesLcDecl cfg = false →
      ∀ (s : Mcp.SState) (evs : List Mcp.SEvent) (t : String) (rt : Bool),
        Mcp.Action.publish t (.notif "notifications/resources/list_changed") rt ∉
          (Mcp.serverRun cfg s evs).2) := by
  refine ⟨?_, ?_, ?_, ?_, ?_, ?_⟩
  · intro s t h hinit
    simp [Mcp.serverStep, hinit]
  · intro s r h hinit
    simp [Mcp.serverStep, hinit]
  · intro s t h hinit
    by_cases hlc : Mcp.toolsLcDecl cfg = true
    · simp [Mcp.serverStep, hinit, hlc]
    · simp [Mcp.serverStep, hinit, hlc]
  · intro s r h hinit
    by_cases hlc : Mcp.resourcesLcDecl cfg = true
    · simp [Mcp.serverStep, hinit, hlc]
    · simp [Mcp.serverStep, hinit, hlc]
  · intro hlc s evs t rt
    exact Mcp.serverRun_no_toolsNotif cfg hlc s evs t rt
  · intro hlc s evs t rt
    exact Mcp.serverRun_no_resourcesNotif cfg hlc s evs t rt

namespace Mcp

/-- A capabilities record declaring `tools.listChanged = true`. -/
def capsLC : Capabilities :=
  { logging := none, prompts := none, resources := none,
    tools := some { listChanged := some true } }

/-- A demo config declaring `tools.listChanged = true`. -/
def cfgLC : ServerConfig :=
  { cfgDemo with capabilities := some capsLC }

/-- A demo tool definition. -/
def toolDemo : ToolDef :=
  { name := "add", description := none, inputSchema := .obj [] }

/-- A demo tool handler resolving with an empty content list. -/
def hDemo : ToolHandlerF :=
  fun _ => .ok { content := [], isError := none }

end Mcp

/-- Witness for C6 at concrete inputs: registering before the flag is
silent, registering after the flag with `listChanged` declared emits
the notification, and a no-capability server run never emits one. -/
theorem registration_listchanged_notifications_witness :
    ((Mcp.serverStep Mcp.cfgDemo Mcp.SState.start (.regTool Mcp.toolDemo Mcp.hDemo)).2 = [])
    ∧ ((Mcp.serverStep Mcp.cfgLC { Mcp.SState.start with initialized := true }
          (.regTool Mcp.toolDemo Mcp.hDemo)).2 =
        [.publish (Mcp.serverCapabilityTopic Mcp.cfgLC)
          (.notif "notifications/tools/list_changed") false])
    ∧ (Mcp.Action.publish "$mcp-server/capability/S1/demo/calc"
        (.notif "notifications/tools/list_changed") false ∉
        (Mcp.serverRun Mcp.cfgDemo Mcp.SState.start
          [.control (some "C1") (some Mcp.initMsgDemo),
           .regTool Mcp.toolDemo Mcp.hDemo]).2) := by
  refine ⟨?_, ?_, ?_⟩
  · exact (registration_listchanged_notifications Mcp.cfgDemo).1 Mcp.SState.start _ _ rfl
  · exact ((registration_listchanged_notifications Mcp.cfgLC).2.2.1
      { Mcp.SState.start with initialized := true } _ _ rfl).mpr (by decide)
  · exact (registration_listchanged_notifications Mcp.cfgDemo).2.2.2.2.1 (by decide)
      Mcp.SState.start _ _ _

namespace Mcp

theorem truthy_strV (s : String) : truthy (.strV s) = (s != "") := rfl

end Mcp

/-- Claim C4: the server RPC dispatcher of `src/index.ts` returns an
error response (error member present, no result member — `respErr`
builds exactly that) with code -32001 for a schema-valid `tools/call`
whose name is not in the tool map, -32002 for a schema-valid
`resources/read` whose uri is not in the resource map, -32601 for any
request whose method string is outside the five handled methods, and a
success response with result `pong` for `ping`.  The truthy-`id`
hypotheses reflect the dispatcher's envelope guard, which drops
messages without a truthy method and id. -/
theorem rpc_dispatcher_error_codes (ts : Mcp.ToolMap) (rs : Mcp.ResMap) (m : Mcp.JsValue) :
    (∀ (n : String) (args : Option Mcp.JsValue),
      Mcp.getField m "method" = .strV "tools/call" →
      Mcp.truthy (Mcp.getField m "id") = true →
      Mcp.zodCallTool m = some (n, args) → Mcp.lookupTool ts n = none →
      Mcp.handleRpcMsg ts rs m =
        some (Mcp.respErr (Mcp.getField m "id") Mcp.toolNotFoundCode
          ("Tool not found: " ++ n)))
    ∧ (∀ u : String,
      Mcp.getField m "method" = .strV "resources/read" →
      Mcp.truthy (Mcp.getField m "id") = true →
      Mcp.zodReadResource m = some u → Mcp.lookupRes rs u = none →
      Mcp.handleRpcMsg ts rs m =
        some (Mcp.respErr (Mcp.getField m "id") Mcp.resourceNotFoundCode
          ("Resource not found: " ++ u)))
    ∧ (∀ s : String,
      Mcp.getField m "method" = .strV s →
      Mcp.truthy (Mcp.getField m "id") = true →
      s ∉ ["tools/list", "tools/call", "resources/list", "resources/read", "ping"] →
      s ≠ "" →
      Mcp.handleRpcMsg ts rs m =
        some (Mcp.respErr (Mcp.getField m "id") Mcp.methodNotFoundCode
          ("Method not found: " ++ s)))
    ∧ (Mcp.getField m "method" = .strV "ping" →
      Mcp.truthy (Mcp.getField m "id") = true →
      Mcp.handleRpcMsg ts rs m = some (Mcp.respOk (Mcp.getField m "id") .pong)) := by
  refine ⟨?_, ?_, ?_, ?_⟩
  · intro n args hm hid hzod hlook
    simp [Mcp.handleRpcMsg, hm, hid, Mcp.truthy_strV, Mcp.handleToolCall, hzod, hlook,
      Mcp.respOfExcept]
  · intro u hm hid hzod hlook
    simp [Mcp.handleRpcMsg, hm, hid, Mcp.truthy_strV, Mcp.handleResourceRead, hzod, hlook,
      Mcp.respOfExcept]
  · intro s hm hid hnotin hne
    simp only [List.mem_cons, List.not_mem_nil, or_false, not_or] at hnotin
    obtain ⟨h1, h2, h3, h4, h5⟩ := hnotin
    simp [Mcp.handleRpcMsg, hm, hid, Mcp.truthy_strV, h1, h2, h3, h4, h5, hne]
  · intro hm hid
    simp [Mcp.handleRpcMsg, hm, hid, Mcp.truthy_strV]

namespace Mcp

/-- A schema-valid tools/call request for an unregistered tool. -/
def callMsgNope : JsValue :=
  .obj [("jsonrpc", .strV "2.0"), ("id", .strV "1"), ("method", .strV "tools/call"),
    ("params", .obj [("name", .strV "nope")])]

/-- A schema-valid resources/read request for an unregistered uri. -/
def readMsgNope : JsValue :=
  .obj [("jsonrpc", .strV "2.0"), ("id", .strV "2"), ("method", .strV "resources/read"),
    ("params", .obj [("uri", .strV "file:u")])]

/-- An unhandled-method request. -/
def promptsMsg : JsValue :=
  .obj [("jsonrpc", .strV "2.0"), ("id", .strV "3"), ("method", .strV "prompts/get")]

/-- A ping request. -/
def pingMsg : JsValue :=
  .obj [("jsonrpc", .strV "2.0"), ("id", .strV "4"), ("method", .strV "ping")]

end Mcp

/-- Witness for C4: the four dispatcher outcomes at concrete
requests against empty tool and resource maps. -/
theorem rpc_dispatcher_error_codes_witness :
    (Mcp.handleRpcMsg [] [] Mcp.callMsgNope =
      some (Mcp.respErr (Mcp.getField Mcp.callMsgNope "id") Mcp.toolNotFoundCode
        ("Tool not found: " ++ "nope")))
    ∧ (Mcp.handleRpcMsg [] [] Mcp.readMsgNope =
      some (Mcp.respErr (Mcp.getField Mcp.readMsgNope "id") Mcp.resourceNotFoundCode
        ("Resource not found: " ++ "file:u")))
    ∧ (Mcp.handleRpcMsg [] [] Mcp.promptsMsg =
      some (Mcp.respErr (Mcp.getField Mcp.promptsMsg "id") Mcp.methodNotFoundCode
        ("Method not found: " ++ "prompts/get")))
    ∧ (Mcp.handleRpcMsg [] [] Mcp.pingMsg =
      some (Mcp.respOk (Mcp.getField Mcp.pingMsg "id") .pong)) :=
  ⟨(rpc_dispatcher_error_codes [] [] Mcp.callMsgNope).1 "nope" none rfl rfl rfl rfl,
   (rpc_dispatcher_error_codes [] [] Mcp.readMsgNope).2.1 "file:u" rfl rfl rfl rfl,
   (rpc_dispatcher_error_codes [] [] Mcp.promptsMsg).2.2.1 "prompts/get" rfl rfl
     (by decide) (by decide),
   (rpc_dispatcher_error_codes [] [] Mcp.pingMsg).2.2.2 rfl rfl⟩

namespace Mcp

/-- A tool map with one tool whose handler rejects with an `McpError`
carrying code -32001. -/
def toolsMcpThrow : ToolMap :=
  [("t", ({ name := "t", description := none, inputSchema := .obj [] },
    fun _ => .error (.mcp (-32001) "boom")))]

/-- A schema-valid tools/call request for the tool `t`. -/
def callMsgT : JsValue :=
  .obj [("jsonrpc", .strV "2.0"), ("id", .strV "5"), ("method", .strV "tools/call"),
    ("params", .obj [("name", .strV "t")])]

end Mcp

/-- Counterexample to claim C5: not every exception raised by a
handler becomes a -32603 response.  The catch clauses of
`handleToolCall` and `handleRpcMessage` in `src/index.ts` test
`error instanceof McpError` and rethrow such errors unchanged, so a
handler that rejects with `McpError(-32001, ...)` produces an error
response with code -32001, not -32603. -/
theorem handler_exception_internal_error_cex :
    Mcp.handleRpcMsg Mcp.toolsMcpThrow [] Mcp.callMsgT =
      some (Mcp.respErr (.strV "5") (-32001) "boom")
    ∧ (-32001 : Int) ≠ Mcp.internalErrorCode :=
  ⟨rfl, by decide⟩

/-- Claim C5 amended: an exception raised by a user-supplied tool or
resource handler that is not an `McpError` is converted into an error
response with code -32603 carrying the raised message (or the fixed
fallback message when the rejection value is not an `Error`); a
handler-raised `McpError` propagates as an error response with its own
code and message; and a handler that resolves with a structured result
— including one with `isError = true` — produces a successful response
(result member present, no error member) carrying that structure
verbatim. -/
theorem handler_outcomes_amended (ts : Mcp.ToolMap) (rs : Mcp.ResMap) (m : Mcp.JsValue) :
    (∀ (n : String) (args : Option Mcp.JsValue) (entry : Mcp.ToolDef × Mcp.ToolHandlerF),
      Mcp.getField m "method" = .strV "tools/call" →
      Mcp.truthy (Mcp.getField m "id") = true →
      Mcp.zodCallTool m = some (n, args) → Mcp.lookupTool ts n = some entry →
      (∀ msg, entry.2 (args.getD (.obj [])) = .error (.jsError msg) →
        Mcp.handleRpcMsg ts rs m =
          some (Mcp.respErr (Mcp.getField m "id") Mcp.internalErrorCode msg))
      ∧ (∀ c msg, entry.2 (args.getD (.obj [])) = .error (.mcp c msg) →
        Mcp.handleRpcMsg ts rs m = some (Mcp.respErr (Mcp.getField m "id") c msg))
      ∧ (entry.2 (args.getD (.obj [])) = .error .raw →
        Mcp.handleRpcMsg ts rs m =
          some (Mcp.respErr (Mcp.getField m "id") Mcp.internalErrorCode
            "Tool execution failed"))
      ∧ (∀ r, entry.2 (args.getD (.obj [])) = .ok r →
        Mcp.handleRpcMsg ts rs m =
          some { id := Mcp.getField m "id", result := some (.toolResult r), error := none }))
    ∧ (∀ (u : String) (entry : Mcp.ResDef × Mcp.ResHandlerF),
      Mcp.getField m "method" = .strV "resources/read" →
      Mcp.truthy (Mcp.getField m "id") = true →
      Mcp.zodReadResource m = some u → Mcp.lookupRes rs u = some entry →
      (∀ msg, entry.2 () = .error (.jsError msg) →
        Mcp.handleRpcMsg ts rs m =
          some (Mcp.respErr (Mcp.getField m "id") Mcp.internalErrorCode msg))
      ∧ (∀ c msg, entry.2 () = .error (.mcp c msg) →
        Mcp.handleRpcMsg ts rs m = some (Mcp.respErr (Mcp.getField m "id") c msg))
      ∧ (entry.2 () = .error .raw →
        Mcp.handleRpcMsg ts rs m =
          some (Mcp.respErr (Mcp.getField m "id") Mcp.internalErrorCode
            "Resource read failed"))
      ∧ (∀ r, entry.2 () = .ok r →
        Mcp.handleRpcMsg ts rs m =
          some { id := Mcp.getField m "id", result := some (.resourceResult r),
                 error := none })) := by
  constructor
  · intro n args entry hm hid hzod hlook
    refine ⟨?_, ?_, ?_, ?_⟩
    · intro msg hh
      simp [Mcp.handleRpcMsg, hm, hid, Mcp.truthy_strV, Mcp.handleToolCall, hzod, hlook,
        hh, Mcp.respOfExcept]
    · intro c msg hh
      simp [Mcp.handleRpcMsg, hm, hid, Mcp.truthy_strV, Mcp.handleToolCall, hzod, hlook,
        hh, Mcp.respOfExcept]
    · intro hh
      simp [Mcp.handleRpcMsg, hm, hid, Mcp.truthy_strV, Mcp.handleToolCall, hzod, hlook,
        hh, Mcp.respOfExcept]
    · intro r hh
      simp [Mcp.handleRpcMsg, hm, hid, Mcp.truthy_strV, Mcp.handleToolCall, hzod, hlook,
        hh, Mcp.respOfExcept, Mcp.respOk]
  · intro u entry hm hid hzod hlook
    refine ⟨?_, ?_, ?_, ?_⟩
    · intro msg hh
      simp [Mcp.handleRpcMsg, hm, hid, Mcp.truthy_strV, Mcp.handleResourceRead, hzod,
        hlook, hh, Mcp.respOfExcept]
    · intro c msg hh
      simp [Mcp.handleRpcMsg, hm, hid, Mcp.truthy_strV, Mcp.handleResourceRead, hzod,
        hlook, hh, Mcp.respOfExcept]
    · intro hh
      simp [Mcp.handleRpcMsg, hm, hid, Mcp.truthy_strV, Mcp.handleResourceRead, hzod,
        hlook, hh, Mcp.respOfExcept]
    · intro r hh
      simp [Mcp.handleRpcMsg, hm, hid, Mcp.truthy_strV, Mcp.handleResourceRead, hzod,
        hlook, hh, Mcp.respOfExcept, Mcp.respOk]

namespace Mcp

/-- A tool map whose handler rejects with an ordinary `Error`, and one
whose handler resolves with an `isError = true` structured result. -/
def toolsJsThrow : ToolMap :=
  [("t", ({ name := "t", description := none, inputSchema := .obj [] },
    fun _ => .error (.jsError "div by zero")))]

/-- A single text content item. -/
def nopeItem : ContentItem :=
  { type := "text", text := some "nope", data := none, mimeType := none }

/-- A structured negative outcome with `isError = true`. -/
def negResult : ToolResult :=
  { content := [nopeItem], isError := some true }

/-- A tool map whose handler resolves with `isError = true`. -/
def toolsNegOutcome : ToolMap :=
  [("t", ({ name := "t", description := none, inputSchema := .obj [] },
    fun _ => .ok negResult))]

end Mcp

/-- Witness for the amended C5: a generic-error rejection becomes a
-32603 response carrying the raised message, and an `isError = true`
resolution becomes a successful response carrying the structure. -/
theorem handler_outcomes_amended_witness :
    (Mcp.handleRpcMsg Mcp.toolsJsThrow [] Mcp.callMsgT =
      some (Mcp.respErr (Mcp.getField Mcp.callMsgT "id") Mcp.internalErrorCode
        "div by zero"))
    ∧ (Mcp.handleRpcMsg Mcp.toolsNegOutcome [] Mcp.callMsgT =
      some { id := Mcp.getField Mcp.callMsgT "id",
             result := some (.toolResult Mcp.negResult),
             error := none }) :=
  ⟨((handler_outcomes_amended Mcp.toolsJsThrow [] Mcp.callMsgT).1 "t" none _
      rfl rfl rfl rfl).1 "div by zero" rfl,
   ((handler_outcomes_amended Mcp.toolsNegOutcome [] Mcp.callMsgT).1 "t" none _
      rfl rfl rfl rfl).2.2.2 _ rfl⟩

namespace Mcp

/-- The state of `UniversalMqttAdapter`: whether the `client` field
holds a live client (`connect` sets it, the `disconnect` callback
nulls it). -/
structure AdapterState : Type where
  clientPresent : Bool
deriving DecidableEq

/-- `UniversalMqttAdapter.publish` from `src/shared/mqtt-adapter.ts`:
reject with the fixed message when the client field is null, resolve
otherwise. -/
def adapterPublish (a : AdapterState) : Except String Unit :=
  if a.clientPresent then .ok () else .error "MQTT client not connected"

/-- `UniversalMqttAdapter.disconnect`: when a client is present, end
it and null the field; when absent, resolve immediately.  Either way
the post-state has no client. -/
def adapterDisconnect (_a : AdapterState) : AdapterState :=
  { clientPresent := false }

/-- The client state relevant to `McpMqttClient.disconnect`: the
adapter, the `connectedServers` table (keyed by server id, valued by
server name) and the pending request ids. -/
structure DCState : Type where
  adapter : AdapterState
  connectedServers : List (String × String)
  pending : List Nat
deriving DecidableEq

/-- `McpMqttClient.disconnect` from `src/client/mcp-client.ts`:
publish `notifications/disconnected` on the RPC topic of every
connected server, publish it on the client presence topic, reject and
clear all pending requests, and disconnect the adapter.  The method
has no catch, so a rejected publish aborts the remaining steps and
propagates to the caller.  Note that `connectedServers` is never
cleared. -/
def clientDisconnect (s : DCState) : Except String DCState := do
  let _ ← s.connectedServers.foldlM (fun _ _ => adapterPublish s.adapter) ()
  let _ ← adapterPublish s.adapter
  let s2 : DCState := { s with pending := [] }
  .ok { s2 with adapter := adapterDisconnect s2.adapter }

theorem foldlM_publish_ok {a : AdapterState} (h : a.clientPresent = true) :
    ∀ l : List (String × String),
      l.foldlM (fun _ _ => adapterPublish a) () = Except.ok () := by
  intro l
  induction l with
  | nil => rfl
  | cons x t ih =>
      simp only [List.foldlM, adapterPublish, h, if_true, bind, Except.bind]
      simpa only [adapterPublish, h, if_true] using ih

theorem clientDisconnect_err_of_noClient {s : DCState}
    (hcp : s.adapter.clientPresent = false) :
    clientDisconnect s = .error "MQTT client not connected" := by
  cases hl : s.connectedServers with
  | nil =>
      simp [clientDisconnect, adapterPublish, hcp, hl, List.foldlM, bind, Except.bind,
        pure, Except.pure]
  | cons x t =>
      simp [clientDisconnect, adapterPublish, hcp, hl, List.foldlM, bind, Except.bind,
        pure, Except.pure]

theorem clientDisconnect_ok_shape {s : DCState}
    (hcp : s.adapter.clientPresent = true) :
    clientDisconnect s = .ok
      { adapter := { clientPresent := false },
        connectedServers := s.connectedServers, pending := [] } := by
  unfold clientDisconnect
  rw [foldlM_publish_ok hcp]
  simp [adapterPublish, hcp, adapterDisconnect, bind, Except.bind, pure, Except.pure]

/-- The demo client: live adapter, one connected server, no pending
requests. -/
def dc0 : DCState :=
  { adapter := { clientPresent := true },
    connectedServers := [("S1", "demo/calc")], pending := [] }

/-- The demo client after its first completed disconnect. -/
def dc1 : DCState :=
  { adapter := { clientPresent := false },
    connectedServers := [("S1", "demo/calc")], pending := [] }

end Mcp

/-- Counterexample to claim C9: calling `disconnect()` a second time
is not a no-op and raises.  The first call completes and nulls the
adapter's client while leaving `connectedServers` populated; the
second call's first publish then rejects with the adapter's
`MQTT client not connected` error, which propagates out of
`disconnect` because the method has no catch. -/
theorem disconnect_twice_cex :
    Mcp.clientDisconnect Mcp.dc0 = .ok Mcp.dc1
    ∧ Mcp.clientDisconnect Mcp.dc1 = .error "MQTT client not connected" :=
  ⟨rfl, rfl⟩

/-- Claim C9 amended: after any completed `disconnect()` the adapter's
client is gone and a second `disconnect()` always rejects with
`MQTT client not connected` at its first publish (the per-server
notification when `connectedServers` is non-empty, else the presence
publish); only the adapter-level `disconnect` is idempotent, its
second application being a no-op on the adapter state. -/
theorem disconnect_second_call (s s' : Mcp.DCState)
    (h : Mcp.clientDisconnect s = .ok s') :
    s'.adapter.clientPresent = false
    ∧ Mcp.clientDisconnect s' = .error "MQTT client not connected"
    ∧ (∀ a : Mcp.AdapterState,
        Mcp.adapterDisconnect (Mcp.adapterDisconnect a) = Mcp.adapterDisconnect a) := by
  have hshape : s'.adapter.clientPresent = false := by
    cases hcp : s.adapter.clientPresent with
    | false =>
        rw [Mcp.clientDisconnect_err_of_noClient hcp] at h
        cases h
    | true =>
        rw [Mcp.clientDisconnect_ok_shape hcp] at h
        cases h
        rfl
  exact ⟨hshape, Mcp.clientDisconnect_err_of_noClient hshape, fun a => rfl⟩

/-- Witness for the amended C9 at the demo client. -/
theorem disconnect_second_call_witness :
    Mcp.dc1.adapter.clientPresent = false
    ∧ Mcp.clientDisconnect Mcp.dc1 = .error "MQTT client not connected"
    ∧ (∀ a : Mcp.AdapterState,
        Mcp.adapterDisconnect (Mcp.adapterDisconnect a) = Mcp.adapterDisconnect a) :=
  disconnect_second_call Mcp.dc0 Mcp.dc1 rfl
